import Mathlib

/-!
# multi-cloud-sdk: a verification development

A shallow embedding of the normalisation layer of `multi-cloud-sdk`:

* `pkg/io/tencent_dns_private.go`: zone resolution, the two record listings
  and the record modification of the Tencent private DNS adapter,
* `pkg/model/s3.go`: the two lifecycle translators,
* `pkg/io/aws_emr.go`: the two EMR cluster listings.

Conventions of the embedding.

* A Go pointer `*T` is `Option T`; dereferencing `none` is the outcome `panic`.
* A Go function returning `(T, error)` returns an `Outcome T`.
* The cloud provider is a record of response functions.  Every call made by the
  code is appended to a trace (`List Call`), and the provider may answer
  according to the whole history of calls issued so far.
* `int64` arithmetic that can overflow goes through `wrap64`.
* Strings are compared through their character lists.
-/

namespace MultiCloud

/-! ## Go runtime -/

/-- A Go `error` value. `sdk` is a `*errors.TencentCloudSDKError` (the type the
    adapters test with a type assertion), `other` is any other error; the string
    is what `Error()` returns. -/
inductive GoError where
  | sdk (msg : String)
  | other (msg : String)
deriving DecidableEq, Repr

/-- Result of running a Go function of result type `(α, error)`: a value with a
    nil error, a non-nil error, or a run-time panic (nil pointer dereference). -/
inductive Outcome (α : Type) where
  | ok (val : α)
  | err (e : GoError)
  | panic
deriving DecidableEq, Repr

/-- Whether the outcome is a returned error (not a value, not a panic). -/
def Outcome.isErr {α : Type} : Outcome α → Bool
  | .err _ => true
  | _ => false

/-- Whether the outcome is a value returned with a nil error. -/
def Outcome.isOk {α : Type} : Outcome α → Bool
  | .ok _ => true
  | _ => false

/-- Two's-complement wrap-around of a mathematical integer into `int64`. -/
def wrap64 (x : Int) : Int := (x + 2 ^ 63) % 2 ^ 64 - 2 ^ 63

/-- Go's `fmt.Errorf` with a constant or already formatted message. -/
def errorf {α : Type} (msg : String) : Outcome α := .err (.other msg)

/-- Go's `strings.HasPrefix(s, pre)`. -/
def hasPrefix (s pre : String) : Bool := pre.data.isPrefixOf s.data

/-- Whether `sub` occurs as a contiguous block of `s`. -/
def containsChars : List Char → List Char → Bool
  | [], sub => sub.isEmpty
  | c :: s, sub => sub.isPrefixOf (c :: s) || containsChars s sub

/-- Go's `strings.Contains(s, sub)`. -/
def stringsContains (s sub : String) : Bool := containsChars s.data sub.data

/-- `cast.ToString` applied to a `*string`: the pointee, and `""` for nil. -/
def castToString (p : Option String) : String := p.getD ""

/-- `cast.ToInt64` / `cast.ToInt` applied to a `*int64` or `*int`: the pointee,
    and `0` for a nil pointer (the conversion error is dropped). -/
def castToInt64 (p : Option Int) : Int := p.getD 0

/-- `cast.ToUint64` applied to a `*int64`: the pointee when it is not negative,
    and `0` for nil or a negative value (the conversion error is dropped). -/
def castToUint64 (p : Option Int) : Nat :=
  match p with
  | none => 0
  | some n => if n < 0 then 0 else n.toNat

/-! ## Tencent private DNS: data model -/

/-- The fields of `privatedns.PrivateZone` the adapter reads. -/
structure PrivateZone where
  ZoneId : Option String
  Domain : Option String
  RecordCount : Option Int
  VpcSet : List String
  Status : Option String
  Tags : List (String × String)
deriving DecidableEq, Repr

/-- The `Response` of `DescribePrivateZoneList`. -/
structure PrivateZoneListResponse where
  PrivateZoneSet : List PrivateZone
  TotalCount : Option Int
deriving DecidableEq, Repr

/-- The type `model.PrivateDomain`. -/
structure PrivateDomain where
  DomainId : Option String
  Name : Option String
  RecordCount : Option Int
  VpcSet : List String
  Status : Option String
  Tags : List (String × String)
deriving DecidableEq, Repr

/-- The type `model.DescribeDomainListRequest`. -/
structure DescribeDomainListRequest where
  DomainKeyword : Option String
deriving DecidableEq, Repr

/-- The type `model.DescribePrivateDomainListResponse`. -/
structure DescribePrivateDomainListResponse where
  DomainList : List PrivateDomain
  TotalCount : Option Int
deriving DecidableEq, Repr

/-- The fields of `privatedns.PrivateZoneRecord` the adapter reads. -/
structure PrivateZoneRecord where
  RecordId : Option String
  SubDomain : Option String
  RecordType : Option String
  RecordValue : Option String
  TTL : Option Int
  Status : Option String
  UpdatedOn : Option String
deriving DecidableEq, Repr

/-- The request `privatedns.DescribePrivateZoneRecordListRequest`. -/
structure RecordListRequest where
  ZoneId : Option String
  Offset : Option Int
  Limit : Option Int
deriving DecidableEq, Repr

/-- The `Response` of `DescribePrivateZoneRecordList`. -/
structure RecordListResponse where
  RecordSet : List PrivateZoneRecord
  TotalCount : Option Int
deriving DecidableEq, Repr

/-- The type `model.Record`; the listings leave `RecordLine`, `Weight`,
    `DomainId` and `Remark` nil. -/
structure Record where
  RecordId : Option String
  Value : Option String
  SubDomain : Option String
  RecordLine : Option String
  RecordType : Option String
  TTL : Option Nat
  Status : Option String
  UpdatedOn : Option String
  Weight : Option Nat
  DomainId : Option Nat
  Remark : Option String
deriving DecidableEq, Repr

/-- The type `model.DescribePrivateRecordListRequest`. -/
structure DescribePrivateRecordListRequest where
  Domain : Option String
  Keyword : Option String
deriving DecidableEq, Repr

/-- The type `model.DescribePrivateRecordListResponse`. -/
structure DescribePrivateRecordListResponse where
  RecordList : List Record
  TotalCount : Option Int
deriving DecidableEq, Repr

/-- The type `model.DescribePrivateDnsRecordListWithPageRequest`. -/
structure DescribePrivateDnsRecordListWithPageRequest where
  Domain : Option String
  Limit : Option Int
  Page : Option Int
deriving DecidableEq, Repr

/-- The type `model.ListRecordsPageResponse`. -/
structure ListRecordsPageResponse where
  PrePage : Option Int
  NextPage : Option Int
  RecordList : List Record
deriving DecidableEq, Repr

/-- The type `model.ModifyRecordRequest` (`uint64` fields are naturals). -/
structure ModifyRecordRequest where
  Domain : Option String
  RecordType : Option String
  Value : Option String
  RecordId : Option Nat
  SubDomain : Option String
  TTL : Option Nat
  Weight : Option Nat
  Status : Option Bool
  Info : Option String
deriving DecidableEq, Repr

/-- The fields of `privatedns.ModifyPrivateZoneRecordRequest` the adapter sets. -/
structure ModifyPrivateZoneRecordRequest where
  ZoneId : Option String
  RecordId : Option String
  RecordType : Option String
  SubDomain : Option String
  RecordValue : Option String
  TTL : Option Int
  Weight : Option Int
deriving DecidableEq, Repr

/-! ## Tencent private DNS: the provider -/

/-- One call leaving the adapter: to the client factory or to the provider. -/
inductive Call where
  | GetTencentPrivateDNSClient (profile : String)
  | DescribePrivateZoneList (domainFilter : Option String)
  | DescribePrivateZoneRecordList (request : RecordListRequest)
  | ModifyPrivateZoneRecord (request : ModifyPrivateZoneRecordRequest)
deriving DecidableEq, Repr

/-- The external collaborators of the adapter. Each takes the calls issued
    before this one, so a provider may answer differently on every call. -/
structure Provider where
  GetTencentPrivateDNSClient : List Call → String → Option GoError
  DescribePrivateZoneList : List Call → Option String → Except GoError PrivateZoneListResponse
  DescribePrivateZoneRecordList :
    List Call → RecordListRequest → Except GoError RecordListResponse
  ModifyPrivateZoneRecord : List Call → ModifyPrivateZoneRecordRequest → Option GoError

/-- The record-list requests of a trace, in the order they were sent. -/
def recordListRequests : List Call → List RecordListRequest
  | [] => []
  | .DescribePrivateZoneRecordList r :: t => r :: recordListRequests t
  | _ :: t => recordListRequests t

/-- The offsets sent on the record-list calls of a trace, an unset `Offset`
    counting as the provider's default `0`. -/
def sentOffsets (tr : List Call) : List Int :=
  (recordListRequests tr).map (fun r => r.Offset.getD 0)

/-- Whether a trace holds a call to the provider (the client factory apart). -/
def hasProviderCall : List Call → Bool
  | [] => false
  | .GetTencentPrivateDNSClient _ :: t => hasProviderCall t
  | _ :: _ => true

/-- Whether a trace holds a call of the provider's modify-record operation. -/
def hasModifyCall : List Call → Bool
  | [] => false
  | .ModifyPrivateZoneRecord _ :: _ => true
  | _ :: t => hasModifyCall t

/-! ## Tencent private DNS: the adapter -/

/-- The loop body of `DescribePrivateDomainList`: one zone to one domain. -/
def toPrivateDomain (z : PrivateZone) : PrivateDomain :=
  { DomainId := some (castToString z.ZoneId)
    Name := z.Domain
    RecordCount := z.RecordCount
    VpcSet := z.VpcSet
    Status := z.Status
    Tags := z.Tags }

/-- The method `tencentClient.DescribePrivateDomainList`. -/
def DescribePrivateDomainList (P : Provider) (tr : List Call) (profile : String)
    (input : DescribeDomainListRequest) :
    Outcome DescribePrivateDomainListResponse × List Call :=
  let tr1 := tr ++ [Call.GetTencentPrivateDNSClient profile]
  match P.GetTencentPrivateDNSClient tr profile with
  | some e => (.err e, tr1)
  | none =>
    let tr2 := tr1 ++ [Call.DescribePrivateZoneList input.DomainKeyword]
    match P.DescribePrivateZoneList tr1 input.DomainKeyword with
    | .error (.sdk m) => (errorf ("an api error has returned: " ++ m), tr2)
    | .error e => (.err e, tr2)
    | .ok response =>
      (.ok { DomainList := response.PrivateZoneSet.map toPrivateDomain
             TotalCount := response.TotalCount }, tr2)

/-- The method `tencentClient.getDomainIdByname`. -/
def getDomainIdByname (P : Provider) (tr : List Call) (profile domain : String) :
    Outcome String × List Call :=
  if hasPrefix domain "zone-" then (.ok domain, tr)
  else
    match DescribePrivateDomainList P tr profile { DomainKeyword := some domain } with
    | (.err e, tr1) => (.err e, tr1)
    | (.panic, tr1) => (.panic, tr1)
    | (.ok resp, tr1) =>
      if resp.DomainList.length ≠ 1 then
        (errorf ("domain not found,or more than one,filter by keyword:" ++ domain), tr1)
      else
        match resp.DomainList with
        | [] => (.panic, tr1)
        | d :: _ =>
          match d.DomainId with
          | none => (.panic, tr1)
          | some id => (.ok id, tr1)

/-- The `model.Record` both listings build from one provider record. -/
def toRecord (r : PrivateZoneRecord) : Record :=
  { RecordId := some (castToString r.RecordId)
    Value := r.RecordValue
    SubDomain := r.SubDomain
    RecordLine := none
    RecordType := r.RecordType
    TTL := some (castToUint64 r.TTL)
    Status := r.Status
    UpdatedOn := r.UpdatedOn
    Weight := none
    DomainId := none
    Remark := none }

/-- The inner `for ... range response.Response.RecordSet` loop of
    `DescribePrivateRecordList`, run on the state `(records, total)`: `total` is
    bumped for every record, the record is appended unless a keyword is given
    and the subdomain does not contain it.  `none` is the panic of dereferencing
    a nil `SubDomain` under a keyword. -/
def scanPage (keyword : Option String) :
    List PrivateZoneRecord → List Record → Nat → Option (List Record × Nat)
  | [], records, total => some (records, total)
  | r :: rest, records, total =>
    match keyword with
    | none => scanPage keyword rest (records ++ [toRecord r]) (total + 1)
    | some kw =>
      match r.SubDomain with
      | none => none
      | some sub =>
        if !stringsContains sub kw then scanPage keyword rest records (total + 1)
        else scanPage keyword rest (records ++ [toRecord r]) (total + 1)

/-- The outer `for` loop of `DescribePrivateRecordList`, entered with the
    response of the call just made. Each iteration uses one unit of fuel; the
    first component is `none` when the fuel runs out before the loop ends. -/
def recordLoop (P : Provider) (keyword : Option String) :
    Nat → RecordListRequest → RecordListResponse → List Record → Nat → List Call →
    Option (Outcome DescribePrivateRecordListResponse) × List Call
  | 0, _, _, _, _, tr => (none, tr)
  | fuel + 1, request, response, records, total, tr =>
    match scanPage keyword response.RecordSet records total with
    | none => (some .panic, tr)
    | some (records1, total1) =>
      if castToInt64 response.TotalCount = (total1 : Int) then
        (some (.ok { RecordList := records1
                     TotalCount := some (records1.length : Int) }), tr)
      else
        let request1 := { request with Offset := some (records1.length : Int) }
        let tr1 := tr ++ [Call.DescribePrivateZoneRecordList request1]
        match P.DescribePrivateZoneRecordList tr request1 with
        | .error e => (some (.err e), tr1)
        | .ok response1 => recordLoop P keyword fuel request1 response1 records1 total1 tr1

/-- The method `tencentClient.DescribePrivateRecordList`, with `fuel` bounding
    the number of iterations of its loop. -/
def DescribePrivateRecordList (P : Provider) (fuel : Nat) (tr : List Call)
    (profile : String) (input : DescribePrivateRecordListRequest) :
    Option (Outcome DescribePrivateRecordListResponse) × List Call :=
  let tr1 := tr ++ [Call.GetTencentPrivateDNSClient profile]
  match P.GetTencentPrivateDNSClient tr profile with
  | some e => (some (.err e), tr1)
  | none =>
    match input.Domain with
    | none => (some (errorf "domain is required"), tr1)
    | some domain =>
      match getDomainIdByname P tr1 profile domain with
      | (.err e, tr2) => (some (.err e), tr2)
      | (.panic, tr2) => (some .panic, tr2)
      | (.ok zoneId, tr2) =>
        let request : RecordListRequest :=
          { ZoneId := some zoneId, Offset := none, Limit := some 100 }
        let tr3 := tr2 ++ [Call.DescribePrivateZoneRecordList request]
        match P.DescribePrivateZoneRecordList tr2 request with
        | .error (.sdk m) => (some (errorf ("an api error has returned: " ++ m)), tr3)
        | .error e => (some (.err e), tr3)
        | .ok response => recordLoop P input.Keyword fuel request response [] 0 tr3

/-- The method `tencentClient.DescribePrivateRecordListWithPages`. -/
def DescribePrivateRecordListWithPages (P : Provider) (tr : List Call) (profile : String)
    (input : DescribePrivateDnsRecordListWithPageRequest) :
    Outcome ListRecordsPageResponse × List Call :=
  let tr1 := tr ++ [Call.GetTencentPrivateDNSClient profile]
  match P.GetTencentPrivateDNSClient tr profile with
  | some e => (.err e, tr1)
  | none =>
    match input.Domain with
    | none => (errorf "domain is required", tr1)
    | some domain =>
      match getDomainIdByname P tr1 profile domain with
      | (.err e, tr2) => (.err e, tr2)
      | (.panic, tr2) => (.panic, tr2)
      | (.ok zoneId, tr2) =>
        let limit : Int :=
          match input.Limit with
          | none => 100
          | some _ => castToInt64 input.Limit
        let offset : Option Int :=
          match input.Page with
          | none => none
          | some page => some (wrap64 (castToInt64 input.Limit * wrap64 (page - 1)))
        let request : RecordListRequest :=
          { ZoneId := some zoneId, Offset := offset, Limit := some limit }
        let tr3 := tr2 ++ [Call.DescribePrivateZoneRecordList request]
        match P.DescribePrivateZoneRecordList tr2 request with
        | .error (.sdk m) => (errorf ("an api error has returned: " ++ m), tr3)
        | .error e => (.err e, tr3)
        | .ok response =>
          let records := response.RecordSet.map toRecord
          let nextPage : Option Int :=
            if limit = (records.length : Int) then
              match input.Page with
              | none => some 2
              | some page => some (wrap64 (page + 1))
            else none
          let prePage : Option Int :=
            match input.Page with
            | none => none
            | some page => if page > 1 then some (wrap64 (page - 1)) else none
          (.ok { RecordList := records, NextPage := nextPage, PrePage := prePage }, tr3)

/-- The method `tencentClient.ModifyPrivateRecord`; it returns only an error,
    so its value is `()`. `cast.ToString` of the `uint64` record identifier is
    its decimal form, `cast.ToInt64` of a `uint64` wraps into `int64`. -/
def ModifyPrivateRecord (P : Provider) (tr : List Call) (profile : String)
    (input : ModifyRecordRequest) : Outcome Unit × List Call :=
  let tr1 := tr ++ [Call.GetTencentPrivateDNSClient profile]
  match P.GetTencentPrivateDNSClient tr profile with
  | some e => (.err e, tr1)
  | none =>
    match input.Domain with
    | none => (errorf "domain is required", tr1)
    | some domain =>
      match getDomainIdByname P tr1 profile domain with
      | (.err e, tr2) => (.err e, tr2)
      | (.panic, tr2) => (.panic, tr2)
      | (.ok zoneId, tr2) =>
        match input.RecordId with
        | none => (errorf "RecordId is required", tr2)
        | some recordId =>
          match input.RecordType with
          | none => (errorf "recordtype is required", tr2)
          | some recordType =>
            match input.SubDomain with
            | none => (errorf "subdomain is required", tr2)
            | some subDomain =>
              match input.Value with
              | none => (errorf "value is required", tr2)
              | some value =>
                let request : ModifyPrivateZoneRecordRequest :=
                  { ZoneId := some zoneId
                    RecordId := some (toString recordId)
                    RecordType := some recordType
                    SubDomain := some subDomain
                    RecordValue := some value
                    TTL := input.TTL.map fun ttl => wrap64 (ttl : Int)
                    Weight := input.Weight.map fun weight => wrap64 (weight : Int) }
                match input.Status with
                | some _ =>
                  (errorf ("status is not supported for tencent cloud private dns. " ++
                    "remove it from input"), tr2)
                | none =>
                  let tr3 := tr2 ++ [Call.ModifyPrivateZoneRecord request]
                  match P.ModifyPrivateZoneRecord tr2 request with
                  | some (.sdk m) => (errorf ("an api error has returned: " ++ m), tr3)
                  | some e => (.err e, tr3)
                  | none => (.ok (), tr3)

/-! ## Object storage: the abstract lifecycle rules (`pkg/model/s3.go`) -/

/-- Sequencing of Go statements: the rest of the function runs on the value of
    a step that returned normally; an error return or a panic ends it. -/
def Outcome.bind {α β : Type} (x : Outcome α) (f : α → Outcome β) : Outcome β :=
  match x with
  | .ok a => f a
  | .err e => .err e
  | .panic => .panic

/-- The type `model.LifecycleFilter`. -/
structure LifecycleFilter where
  Prefix : Option String
deriving DecidableEq, Repr

/-- The type `model.LifecycleExpiration`. -/
structure LifecycleExpiration where
  Days : Option Int
  Date : Option String
  ExpiredObjectDeleteMarker : Option Bool
deriving DecidableEq, Repr

/-- The type `model.LifecycleNoncurrentVersionExpiration`. -/
structure LifecycleNoncurrentVersionExpiration where
  Days : Option Int
deriving DecidableEq, Repr

/-- The type `model.LifecycleTransition`. -/
structure LifecycleTransition where
  StorageClass : Option String
  Days : Option Int
deriving DecidableEq, Repr

/-- The type `model.LifecycleNoncurrentVersionTransition`. -/
structure LifecycleNoncurrentVersionTransition where
  Days : Option Int
  StorageClass : Option String
deriving DecidableEq, Repr

/-- The type `model.LifecycleAbortIncompleteMultipartUpload`. -/
structure LifecycleAbortIncompleteMultipartUpload where
  DaysAfterInitiation : Option Int
deriving DecidableEq, Repr

/-- The type `model.Lifecycle`. -/
structure Lifecycle where
  ID : Option String
  Filter : Option LifecycleFilter
  Expiration : Option LifecycleExpiration
  NoncurrentVersionExpiration : Option LifecycleNoncurrentVersionExpiration
  Transition : Option LifecycleTransition
  NoncurrentVersionTransition : Option LifecycleNoncurrentVersionTransition
  AbortIncompleteMultipartUpload : Option LifecycleAbortIncompleteMultipartUpload
deriving DecidableEq, Repr

/-- The type `model.CreateBucketLifecycleRequest`. -/
structure CreateBucketLifecycleRequest where
  Bucket : Option String
  Lifecycles : List Lifecycle
deriving DecidableEq, Repr

/-- The prefix of a rule's filter: `Filter != nil && Filter.Prefix != nil`. -/
def Lifecycle.prefixOf (l : Lifecycle) : Option String :=
  match l.Filter with
  | none => none
  | some f => f.Prefix

/-! ## Object storage: the COS translator -/

/-- The fields of `cos.BucketLifecycleFilter` the translator sets. -/
structure BucketLifecycleFilter where
  Prefix : String
deriving DecidableEq, Repr, Inhabited

/-- The type `cos.BucketLifecycleExpiration`. -/
structure BucketLifecycleExpiration where
  Date : String
  Days : Int
  ExpiredObjectDeleteMarker : Bool
deriving DecidableEq, Repr, Inhabited

/-- The type `cos.BucketLifecycleTransition`. -/
structure BucketLifecycleTransition where
  Date : String
  Days : Int
  StorageClass : String
deriving DecidableEq, Repr, Inhabited

/-- The type `cos.BucketLifecycleNoncurrentVersion`. -/
structure BucketLifecycleNoncurrentVersion where
  NoncurrentDays : Int
  StorageClass : String
deriving DecidableEq, Repr, Inhabited

/-- The type `cos.BucketLifecycleAbortIncompleteMultipartUpload`. -/
structure BucketLifecycleAbortIncompleteMultipartUpload where
  DaysAfterInitiation : Int
deriving DecidableEq, Repr, Inhabited

/-- The type `cos.BucketLifecycleRule`; its `default` is Go's zero value. -/
structure BucketLifecycleRule where
  ID : String
  Status : String
  Filter : Option BucketLifecycleFilter
  Transition : List BucketLifecycleTransition
  Expiration : Option BucketLifecycleExpiration
  AbortIncompleteMultipartUpload : Option BucketLifecycleAbortIncompleteMultipartUpload
  NoncurrentVersionTransition : List BucketLifecycleNoncurrentVersion
  NoncurrentVersionExpiration : Option BucketLifecycleNoncurrentVersion
deriving DecidableEq, Repr, Inhabited

/-- The type `cos.BucketPutLifecycleOptions`. -/
structure BucketPutLifecycleOptions where
  XMLName : String
  Rules : List BucketLifecycleRule
deriving DecidableEq, Repr

/-- COS, step `if lifecycle.Filter != nil && lifecycle.Filter.Prefix != nil`. -/
def cosFilter (l : Lifecycle) : Option BucketLifecycleFilter :=
  match l.prefixOf with
  | none => none
  | some p => some { Prefix := p }

/-- COS, step `if lifecycle.AbortIncompleteMultipartUpload != nil`: the days
    are dereferenced with no nil check. -/
def cosAbort (a : Option LifecycleAbortIncompleteMultipartUpload) :
    Outcome (Option BucketLifecycleAbortIncompleteMultipartUpload) :=
  match a with
  | none => .ok none
  | some x =>
    match x.DaysAfterInitiation with
    | none => .panic
    | some d => .ok (some { DaysAfterInitiation := d })

/-- COS, step `if lifecycle.NoncurrentVersionExpiration != nil`. -/
def cosNoncurrentVersionExpiration (a : Option LifecycleNoncurrentVersionExpiration) :
    Outcome (Option BucketLifecycleNoncurrentVersion) :=
  match a with
  | none => .ok none
  | some x =>
    match x.Days with
    | none => errorf "NoncurrentVersionExpiration days is required"
    | some d => .ok (some { NoncurrentDays := d, StorageClass := "" })

/-- COS, step `if lifecycle.NoncurrentVersionTransition != nil`; `[]` is the
    nil slice left when the sub-structure is absent. -/
def cosNoncurrentVersionTransition (a : Option LifecycleNoncurrentVersionTransition) :
    Outcome (List BucketLifecycleNoncurrentVersion) :=
  match a with
  | none => .ok []
  | some x =>
    match x.Days with
    | none => errorf "NoncurrentVersionTransition days is required"
    | some d =>
      match x.StorageClass with
      | none => errorf "StorageClass is required"
      | some sc => .ok [{ NoncurrentDays := d, StorageClass := sc }]

/-- COS, step `if lifecycle.Expiration != nil`. -/
def cosExpiration (a : Option LifecycleExpiration) :
    Outcome (Option BucketLifecycleExpiration) :=
  match a with
  | none => .ok none
  | some x =>
    match x.Days with
    | none => errorf "days is required"
    | some d =>
      .ok (some { Days := d
                  Date := x.Date.getD ""
                  ExpiredObjectDeleteMarker := x.ExpiredObjectDeleteMarker.getD false })

/-- COS, step `if lifecycle.Transition != nil`: days and storage class are
    dereferenced with no nil check. -/
def cosTransition (a : Option LifecycleTransition) :
    Outcome (List BucketLifecycleTransition) :=
  match a with
  | none => .ok []
  | some x =>
    match x.Days with
    | none => .panic
    | some d =>
      match x.StorageClass with
      | none => .panic
      | some sc => .ok [{ Date := "", Days := d, StorageClass := sc }]

/-- The body of the loop of `ToCOSLifecycle`: the rule built from one
    lifecycle, its steps in source order. -/
def cosRule (l : Lifecycle) : Outcome BucketLifecycleRule :=
  match l.ID with
  | none => errorf "id is required"
  | some id =>
    (cosAbort l.AbortIncompleteMultipartUpload).bind fun abort =>
    (cosNoncurrentVersionExpiration l.NoncurrentVersionExpiration).bind fun nve =>
    (cosNoncurrentVersionTransition l.NoncurrentVersionTransition).bind fun nvt =>
    (cosExpiration l.Expiration).bind fun ex =>
    (cosTransition l.Transition).bind fun tr =>
    .ok { ID := id
          Status := "Enabled"
          Filter := cosFilter l
          Transition := tr
          Expiration := ex
          AbortIncompleteMultipartUpload := abort
          NoncurrentVersionTransition := nvt
          NoncurrentVersionExpiration := nve }

/-- The loop `for i, lifecycle := range c.Lifecycles` of `ToCOSLifecycle`, from
    index `i` on, writing `cosRules[i] = rule`. -/
def cosLoop : List Lifecycle → Nat → List BucketLifecycleRule →
    Outcome (List BucketLifecycleRule)
  | [], _, cosRules => .ok cosRules
  | l :: rest, i, cosRules =>
    (cosRule l).bind fun rule => cosLoop rest (i + 1) (cosRules.set i rule)

/-- The method `CreateBucketLifecycleRequest.ToCOSLifecycle`; `cosRules` starts
    as `make([]cos.BucketLifecycleRule, len(c.Lifecycles))`. The debug print of
    the rules is not modelled. -/
def ToCOSLifecycle (c : CreateBucketLifecycleRequest) : Outcome BucketPutLifecycleOptions :=
  (cosLoop c.Lifecycles 0 (List.replicate c.Lifecycles.length default)).bind fun cosRules =>
    .ok { XMLName := "LifecycleConfiguration", Rules := cosRules }

/-! ## Object storage: the AWS S3 translator -/

/-- The fields of `s3.LifecycleExpiration` the translator sets. -/
structure S3LifecycleExpiration where
  Days : Option Int
deriving DecidableEq, Repr

/-- The fields of `s3.Transition` the translator sets. -/
structure S3Transition where
  Days : Option Int
deriving DecidableEq, Repr

/-- The type `s3.AbortIncompleteMultipartUpload`. -/
structure S3AbortIncompleteMultipartUpload where
  DaysAfterInitiation : Option Int
deriving DecidableEq, Repr

/-- The fields of `s3.NoncurrentVersionExpiration` the translator sets. -/
structure S3NoncurrentVersionExpiration where
  NoncurrentDays : Option Int
deriving DecidableEq, Repr

/-- The type `s3.NoncurrentVersionTransition`. -/
structure S3NoncurrentVersionTransition where
  NoncurrentDays : Option Int
  StorageClass : Option String
deriving DecidableEq, Repr

/-- The type `s3.Rule`. -/
structure S3Rule where
  AbortIncompleteMultipartUpload : Option S3AbortIncompleteMultipartUpload
  Expiration : Option S3LifecycleExpiration
  ID : Option String
  NoncurrentVersionExpiration : Option S3NoncurrentVersionExpiration
  NoncurrentVersionTransition : Option S3NoncurrentVersionTransition
  Prefix : Option String
  Status : Option String
  Transition : Option S3Transition
deriving DecidableEq, Repr

/-- The type `s3.LifecycleConfiguration`: a slice of rule pointers. -/
structure S3LifecycleConfiguration where
  Rules : List (Option S3Rule)
deriving DecidableEq, Repr

/-- The type `s3.PutBucketLifecycleInput`. -/
structure PutBucketLifecycleInput where
  Bucket : Option String
  LifecycleConfiguration : Option S3LifecycleConfiguration
deriving DecidableEq, Repr

/-- The body of the loop of `ToAWSS3Lifecycle`: the rule built from one
    lifecycle. The only return inside the loop is the final filter check. -/
def awsRule (l : Lifecycle) : Outcome S3Rule :=
  let rule : S3Rule :=
    { ID := l.ID
      Status := some "Enabled"
      Prefix := l.prefixOf
      Expiration := l.Expiration.map fun x => { Days := some (castToInt64 x.Days) }
      Transition := l.Transition.map fun x => { Days := some (castToInt64 x.Days) }
      AbortIncompleteMultipartUpload :=
        l.AbortIncompleteMultipartUpload.map fun x =>
          { DaysAfterInitiation := some (castToInt64 x.DaysAfterInitiation) }
      NoncurrentVersionExpiration :=
        l.NoncurrentVersionExpiration.map fun x =>
          { NoncurrentDays := some (castToInt64 x.Days) }
      NoncurrentVersionTransition :=
        l.NoncurrentVersionTransition.map fun x =>
          { NoncurrentDays := some (castToInt64 x.Days), StorageClass := x.StorageClass } }
  match l.prefixOf with
  | some _ => .ok rule
  | none => errorf "filter is required"

/-- The loop `for i, lifecycle := range c.Lifecycles` of `ToAWSS3Lifecycle`,
    from index `i` on, writing `rules[i] = rule`. -/
def awsLoop : List Lifecycle → Nat → List (Option S3Rule) → Outcome (List (Option S3Rule))
  | [], _, rules => .ok rules
  | l :: rest, i, rules =>
    (awsRule l).bind fun rule => awsLoop rest (i + 1) (rules.set i (some rule))

/-- The method `CreateBucketLifecycleRequest.ToAWSS3Lifecycle`; `rules` starts
    as `make([]*s3.Rule, len(c.Lifecycles))`, a slice of nil pointers. -/
def ToAWSS3Lifecycle (c : CreateBucketLifecycleRequest) : Outcome PutBucketLifecycleInput :=
  (awsLoop c.Lifecycles 0 (List.replicate c.Lifecycles.length none)).bind fun rules =>
    .ok { Bucket := c.Bucket, LifecycleConfiguration := some { Rules := rules } }

/-- The output rules of a translation to COS: those of the returned structure,
    and none at all when the translator returned an error or panicked. -/
def cosOutputRules (o : Outcome BucketPutLifecycleOptions) : List BucketLifecycleRule :=
  match o with
  | .ok opts => opts.Rules
  | _ => []

/-- The output rules of a translation to AWS S3: those of the returned
    structure, and none at all when the translator returned an error. -/
def awsOutputRules (o : Outcome PutBucketLifecycleInput) : List (Option S3Rule) :=
  match o with
  | .ok input =>
    match input.LifecycleConfiguration with
    | some cfg => cfg.Rules
    | none => []
  | _ => []

/-- A present sub-structure of the rule lacks one of its required fields. -/
def Lifecycle.missingRequiredField (l : Lifecycle) : Bool :=
  (match l.Expiration with
   | some x => x.Days.isNone
   | none => false) ||
  (match l.Transition with
   | some x => x.Days.isNone || x.StorageClass.isNone
   | none => false) ||
  (match l.NoncurrentVersionTransition with
   | some x => x.Days.isNone || x.StorageClass.isNone
   | none => false) ||
  (match l.NoncurrentVersionExpiration with
   | some x => x.Days.isNone
   | none => false) ||
  (match l.AbortIncompleteMultipartUpload with
   | some x => x.DaysAfterInitiation.isNone
   | none => false)

/-- A rule with an identifier whose present sub-structures all carry their
    required fields. -/
def Lifecycle.wellFormed (l : Lifecycle) : Bool :=
  l.ID.isSome && !l.missingRequiredField

/-! ## Managed clusters: the AWS EMR adapter (`pkg/io/aws_emr.go`) -/

/-- The type `model.EMRClusterStatus`, a named string type: the conversion
    `model.EMRClusterStatus(s)` is the identity on the underlying string. -/
abbrev EMRClusterStatus := String

/-- Modelled from the spec: the constant table of `model.EMRClusterStatus` is
    not among the sources; these are the unified cluster states the spec names
    ("a fixed state enumeration (e.g. STARTING, RUNNING, TERMINATING,
    TERMINATED, ...)"). -/
def definedClusterStates : List EMRClusterStatus :=
  ["STARTING", "RUNNING", "TERMINATING", "TERMINATED"]

/-- The type `emr.ClusterTimeline` (a `time.Time` is an integer instant). -/
structure ClusterTimeline where
  CreationDateTime : Option Int
deriving DecidableEq, Repr

/-- The fields of `emr.ClusterStatus` the adapter reads. -/
structure ClusterStatus where
  State : Option String
  Timeline : Option ClusterTimeline
deriving DecidableEq, Repr

/-- The fields of `emr.ClusterSummary` the adapter reads. -/
structure ClusterSummary where
  Id : Option String
  Name : Option String
  Status : Option ClusterStatus
deriving DecidableEq, Repr

/-- The type `emr.ListClustersInput`. -/
structure ListClustersInput where
  ClusterStates : List (Option String)
  CreatedAfter : Option Int
  Marker : Option String
deriving DecidableEq, Repr

/-- The type `emr.ListClustersOutput`: a slice of cluster pointers. -/
structure ListClustersOutput where
  Clusters : List (Option ClusterSummary)
  Marker : Option String
deriving DecidableEq, Repr

/-- The fields of `emr.Cluster` the adapter reads; tags are key/value pairs. -/
structure EmrClusterDetail where
  Id : Option String
  Name : Option String
  Status : Option ClusterStatus
  Tags : List (Option String × Option String)
deriving DecidableEq, Repr

/-- The type `emr.DescribeClusterOutput`. -/
structure DescribeClusterOutput where
  Cluster : Option EmrClusterDetail
deriving DecidableEq, Repr

/-- The type `model.EmrFilter`; `Period` is a `*time.Duration`. -/
structure EmrFilter where
  Profile : Option String
  Region : Option String
  ClusterStates : List EMRClusterStatus
  NextMarker : Option String
  Period : Option Int
deriving DecidableEq, Repr

/-- The type `model.EmrCluster`. -/
structure EmrCluster where
  ID : Option String
  Name : Option String
  AddTime : Int
  Status : EMRClusterStatus
deriving DecidableEq, Repr

/-- The type `model.FilterEmrResponse`. -/
structure FilterEmrResponse where
  Clusters : List EmrCluster
  NextMarker : Option String
deriving DecidableEq, Repr

/-- The type `model.DescribeInput`. -/
structure DescribeInput where
  Profile : Option String
  Region : Option String
  IDS : List (Option String)
deriving DecidableEq, Repr

/-- The type `model.DescribeEmrCluster`; `Meta` is the provider's cluster and
    `Tags` the result of `model.NewTagsFromAWSEmrTags`. -/
structure DescribeEmrClusterItem where
  ID : Option String
  Name : Option String
  Status : EMRClusterStatus
  CreateTime : Option Int
  Meta : EmrClusterDetail
  Tags : List (String × String)
deriving DecidableEq, Repr

/-- One call leaving the EMR adapter. -/
inductive EmrCall where
  | GetAWSEmrClient (profile region : String)
  | ListClusters (input : ListClustersInput)
  | DescribeCluster (clusterId : Option String)
deriving DecidableEq, Repr

/-- The external collaborators of the EMR adapter: the clock, the client
    factory, the two provider calls (each given the calls issued before it) and
    the tag conversion `model.NewTagsFromAWSEmrTags`, which is not among the
    sources. -/
structure EmrProvider where
  now : Int
  GetAWSEmrClient : List EmrCall → String → String → Option GoError
  ListClusters : List EmrCall → ListClustersInput → Except GoError ListClustersOutput
  DescribeCluster : List EmrCall → Option String → Except GoError DescribeClusterOutput
  NewTagsFromAWSEmrTags : List (Option String × Option String) → List (String × String)

/-- The body of the loop of `QueryEmrCluster`: one provider cluster to one
    `model.EmrCluster`. -/
def toEmrCluster (c : Option ClusterSummary) : Outcome EmrCluster :=
  match c with
  | none => .panic
  | some cluster =>
    match cluster.Status with
    | none => .panic
    | some status =>
      match status.Timeline with
      | none => .panic
      | some timeline =>
        match timeline.CreationDateTime with
        | none => errorf "cluster.Status.Timeline.CreationDateTime is nil"
        | some created =>
          match status.State with
          | none => .panic
          | some state =>
            .ok { ID := cluster.Id, Name := cluster.Name, AddTime := created, Status := state }

/-- The loop `for _, cluster := range result.Clusters` of `QueryEmrCluster`,
    appending to `clusters`. -/
def queryLoop : List (Option ClusterSummary) → List EmrCluster → Outcome (List EmrCluster)
  | [], clusters => .ok clusters
  | c :: rest, clusters =>
    (toEmrCluster c).bind fun e => queryLoop rest (clusters ++ [e])

/-- The method `awsClient.QueryEmrCluster`. -/
def QueryEmrCluster (P : EmrProvider) (tr : List EmrCall) (filter : EmrFilter) :
    Outcome FilterEmrResponse × List EmrCall :=
  if filter.Region.isNone && filter.Profile.isNone then
    (errorf "region or profile is empty", tr)
  else
    match filter.Profile with
    | none => (.panic, tr)
    | some profile =>
      match filter.Region with
      | none => (.panic, tr)
      | some region =>
        let tr1 := tr ++ [EmrCall.GetAWSEmrClient profile region]
        match P.GetAWSEmrClient tr profile region with
        | some e => (.err e, tr1)
        | none =>
          let input : ListClustersInput :=
            { ClusterStates := filter.ClusterStates.map some
              Marker := filter.NextMarker
              CreatedAfter := filter.Period.map fun period => P.now - period }
          let tr2 := tr1 ++ [EmrCall.ListClusters input]
          match P.ListClusters tr1 input with
          | .error e => (.err e, tr2)
          | .ok result =>
            ((queryLoop result.Clusters []).bind fun clusters =>
              .ok { Clusters := clusters, NextMarker := result.Marker }, tr2)

/-- What `DescribeEmrCluster` builds from the output of one `DescribeCluster`. -/
def toDescribeEmrCluster (P : EmrProvider) (out : DescribeClusterOutput) :
    Outcome DescribeEmrClusterItem :=
  match out.Cluster with
  | none => .panic
  | some cluster =>
    match cluster.Status with
    | none => .panic
    | some status =>
      match status.State with
      | none => .panic
      | some state =>
        match status.Timeline with
        | none => .panic
        | some timeline =>
          .ok { ID := cluster.Id
                Name := cluster.Name
                Status := state
                CreateTime := timeline.CreationDateTime
                Meta := cluster
                Tags := P.NewTagsFromAWSEmrTags cluster.Tags }

/-- The loop `for _, id := range input.IDS` of `DescribeEmrCluster`: one
    `DescribeCluster` call per identifier, appending to `clusters`. -/
def describeLoop (P : EmrProvider) :
    List (Option String) → List DescribeEmrClusterItem → List EmrCall →
    Outcome (List DescribeEmrClusterItem) × List EmrCall
  | [], clusters, tr => (.ok clusters, tr)
  | id :: rest, clusters, tr =>
    let tr1 := tr ++ [EmrCall.DescribeCluster id]
    match P.DescribeCluster tr id with
    | .error e => (.err e, tr1)
    | .ok out =>
      match toDescribeEmrCluster P out with
      | .ok item => describeLoop P rest (clusters ++ [item]) tr1
      | .err e => (.err e, tr1)
      | .panic => (.panic, tr1)

/-- The method `awsClient.DescribeEmrCluster`. -/
def DescribeEmrCluster (P : EmrProvider) (tr : List EmrCall) (input : DescribeInput) :
    Outcome (List DescribeEmrClusterItem) × List EmrCall :=
  if input.Region.isNone && input.Profile.isNone then
    (errorf "region or profile is empty", tr)
  else
    match input.Profile with
    | none => (.panic, tr)
    | some profile =>
      match input.Region with
      | none => (.panic, tr)
      | some region =>
        let tr1 := tr ++ [EmrCall.GetAWSEmrClient profile region]
        match P.GetAWSEmrClient tr profile region with
        | some e => (.err e, tr1)
        | none => describeLoop P input.IDS [] tr1

/-! ## Simulated offset provider -/

/-- The zone the simulated provider lists for every keyword. -/
def simZone : PrivateZone :=
  { ZoneId := some "zone-sim", Domain := some "example.internal", RecordCount := none
    VpcSet := [], Status := some "ENABLED", Tags := [] }

/-- A simulated offset provider holding the fixed list `raw` of records: the
    client factory succeeds, every zone listing yields the one zone `simZone`,
    every record-list call returns the slice `[Offset, Offset + Limit)` of
    `raw` (an unset offset is `0`, an unset limit `100`) with
    `TotalCount = raw.length`, and every modify-record call succeeds. -/
def simProvider (raw : List PrivateZoneRecord) : Provider where
  GetTencentPrivateDNSClient _ _ := none
  DescribePrivateZoneList _ _ := .ok { PrivateZoneSet := [simZone], TotalCount := some 1 }
  DescribePrivateZoneRecordList _ req :=
    .ok { RecordSet := (raw.drop (req.Offset.getD 0).toNat).take (req.Limit.getD 100).toNat
          TotalCount := some (raw.length : Int) }
  ModifyPrivateZoneRecord _ _ := none

/-- Whether the listing keeps a provider record under the optional keyword:
    every record without a keyword, else those whose subdomain contains it. -/
def keeps (keyword : Option String) (r : PrivateZoneRecord) : Bool :=
  match keyword with
  | none => true
  | some kw =>
    match r.SubDomain with
    | none => false
    | some sub => stringsContains sub kw

/-- Record number `i` of the concrete scenario: the subdomain contains the
    keyword `api` exactly when `21` divides `i`; the TTL tells records apart. -/
def scenarioRecord (i : Nat) : PrivateZoneRecord :=
  { RecordId := none
    SubDomain := some (if i % 21 = 0 then "api-gw" else "db")
    RecordType := some "A"
    RecordValue := some "10.0.0.1"
    TTL := some (i : Int)
    Status := some "ENABLED"
    UpdatedOn := none }

/-- The concrete scenario of the spec: 250 raw records, 12 of which match the
    keyword `api` (records 0, 21, ..., 231: five on each of the first two pages
    of 100, two on the third). -/
def scenarioRaw : List PrivateZoneRecord := (List.range 250).map scenarioRecord

/-- The request of the concrete scenario. -/
def scenarioInput : DescribePrivateRecordListRequest :=
  { Domain := some "zone-1", Keyword := some "api" }

/-- The record-list calls following the first one when the cursor advances by a
    full page of 100 each time: `k` calls, the first at offset `sent + 100`. -/
def furtherCalls (zoneId : Option String) (sent k : Nat) : List Call :=
  (List.range k).map fun j =>
    Call.DescribePrivateZoneRecordList
      { ZoneId := zoneId, Offset := some ((sent + 100 * (j + 1) : Nat) : Int), Limit := some 100 }

/-- Record number `i` of a two-page data set: every record of the first page
    of 100 matches the keyword `api`, and on the last page those with `7 ∣ i`. -/
def pagedRecord (i : Nat) : PrivateZoneRecord :=
  { RecordId := none
    SubDomain := some (if i < 100 ∨ i % 7 = 0 then "api-gw" else "db")
    RecordType := some "A"
    RecordValue := some "10.0.0.1"
    TTL := some (i : Int)
    Status := some "ENABLED"
    UpdatedOn := none }

/-- A two-page data set of 120 records, see `pagedRecord`. -/
def pagedRaw : List PrivateZoneRecord := (List.range 120).map pagedRecord

/-- A bounded-page request: page 2 with a page size of 10. -/
def pagesInput : DescribePrivateDnsRecordListWithPageRequest :=
  { Domain := some "zone-1", Limit := some 10, Page := some 2 }

/-- What the bounded-page listing sends for `pagesInput`. -/
def pagesRequest : RecordListRequest :=
  { ZoneId := some "zone-1", Offset := some 10, Limit := some 10 }

/-- What the bounded-page listing returns for `pagesInput` on `pagedRaw`. -/
def pagesResponse : ListRecordsPageResponse :=
  { PrePage := some 1, NextPage := some 3
    RecordList := ((pagedRaw.drop 10).take 10).map toRecord }

/-! ## Lifecycle rule sets used as concrete inputs -/

/-- A rule with only an identifier and a prefix filter. -/
def prefixedRule (id pre : String) : Lifecycle :=
  { ID := some id, Filter := some { Prefix := some pre }, Expiration := none
    NoncurrentVersionExpiration := none, Transition := none
    NoncurrentVersionTransition := none, AbortIncompleteMultipartUpload := none }

/-- A rule with an identifier, a prefix filter and every sub-structure, each
    with its required fields. -/
def fullRule : Lifecycle :=
  { ID := some "archive-logs"
    Filter := some { Prefix := some "logs/" }
    Expiration := some { Days := some 365, Date := none, ExpiredObjectDeleteMarker := none }
    NoncurrentVersionExpiration := some { Days := some 90 }
    Transition := some { StorageClass := some "STANDARD_IA", Days := some 30 }
    NoncurrentVersionTransition := some { Days := some 30, StorageClass := some "ARCHIVE" }
    AbortIncompleteMultipartUpload := some { DaysAfterInitiation := some 7 } }

/-- The second rule of the example in `s3.go`: an identifier, an empty filter
    and an abort of incomplete multipart uploads after 30 days. -/
def noFilterRule : Lifecycle :=
  { ID := some "OPS_BASE", Filter := some { Prefix := none }, Expiration := none
    NoncurrentVersionExpiration := none, Transition := none
    NoncurrentVersionTransition := none
    AbortIncompleteMultipartUpload := some { DaysAfterInitiation := some 30 } }

/-- Two rules, the second of which has no identifier. -/
def missingIdRequest : CreateBucketLifecycleRequest :=
  { Bucket := some "examplebucket-1250000000"
    Lifecycles := [prefixedRule "rule-1" "logs/", { prefixedRule "" "tmp/" with ID := none }] }

/-- One rule whose abort sub-structure has no days-after-initiation. -/
def abortWithoutDaysRequest : CreateBucketLifecycleRequest :=
  { Bucket := some "examplebucket-1250000000"
    Lifecycles :=
      [{ prefixedRule "rule-1" "logs/" with
          AbortIncompleteMultipartUpload := some { DaysAfterInitiation := none } }] }

/-- One rule whose expiration sub-structure has no days. -/
def expirationWithoutDaysRequest : CreateBucketLifecycleRequest :=
  { Bucket := some "examplebucket-1250000000"
    Lifecycles :=
      [{ prefixedRule "rule-1" "logs/" with
          Expiration := some { Days := none, Date := none, ExpiredObjectDeleteMarker := none } }] }

/-- Two well-formed rules, both with a prefix filter. -/
def orderedRequest : CreateBucketLifecycleRequest :=
  { Bucket := some "examplebucket-1250000000"
    Lifecycles := [fullRule, prefixedRule "tmp" "tmp/"] }

/-- Two well-formed rules, the second with no prefix filter. -/
def noFilterRequest : CreateBucketLifecycleRequest :=
  { Bucket := some "examplebucket-1250000000"
    Lifecycles := [fullRule, noFilterRule] }

/-! ## Cluster states: reading the provider's answer, and concrete inputs -/

/-- The status string the provider reports for a listed cluster, if any. -/
def summaryState (c : Option ClusterSummary) : Option String :=
  (c.bind fun s => s.Status).bind fun st => st.State

/-- A listed cluster with its status, state, timeline and creation time. -/
def summaryComplete (c : Option ClusterSummary) : Bool :=
  match c with
  | some { Status := some { State := some _, Timeline := some { CreationDateTime := some _ } }, .. } =>
    true
  | _ => false

/-- The status string the provider reports for a described cluster, if any. -/
def detailState (out : DescribeClusterOutput) : Option String :=
  (out.Cluster.bind fun s => s.Status).bind fun st => st.State

/-- A described cluster with its status, state and timeline. -/
def detailComplete (out : DescribeClusterOutput) : Bool :=
  match out.Cluster with
  | some { Status := some { State := some _, Timeline := some _ }, .. } => true
  | _ => false

/-- A status of a cluster whose state is not a defined unified state. -/
def undefinedStatus : ClusterStatus :=
  { State := some "NOT_A_STATE", Timeline := some { CreationDateTime := some 1700000000 } }

/-- A provider whose clusters all report the state `NOT_A_STATE`. -/
def undefinedStateProvider : EmrProvider where
  now := 1700003600
  GetAWSEmrClient _ _ _ := none
  ListClusters _ _ :=
    .ok { Clusters := [some { Id := some "j-1", Name := some "etl", Status := some undefinedStatus }]
          Marker := none }
  DescribeCluster _ id :=
    .ok { Cluster := some { Id := id, Name := some "etl", Status := some undefinedStatus
                            Tags := [] } }
  NewTagsFromAWSEmrTags _ := []

/-- A filter with a profile and a region. -/
def emrFilter : EmrFilter :=
  { Profile := some "default", Region := some "us-east-1", ClusterStates := []
    NextMarker := none, Period := none }

/-- A describe request with a profile, a region and one identifier. -/
def emrDescribeInput : DescribeInput :=
  { Profile := some "default", Region := some "us-east-1", IDS := [some "j-1"] }

/-! ## Concrete inputs: modify request and one-selector cluster requests -/

/-- A modify request with every required field and the status toggle set. -/
def modifyWithStatus : ModifyRecordRequest :=
  { Domain := some "example.internal", RecordType := some "A", Value := some "10.0.0.2"
    RecordId := some 42, SubDomain := some "www", TTL := some 600, Weight := none
    Status := some false, Info := none }

/-- A filter with a region and no profile. -/
def regionOnlyFilter : EmrFilter :=
  { Profile := none, Region := some "us-east-1", ClusterStates := []
    NextMarker := none, Period := none }

/-- A describe request with a profile and no region. -/
def profileOnlyInput : DescribeInput :=
  { Profile := some "default", Region := none, IDS := [some "j-1"] }

/-! # Theorems -/

/-! ## Tencent private DNS: full listing -/

/-- The inner loop adds the page length to `total` and appends the kept records
    of the page, provided no subdomain is nil under a keyword. -/
theorem scanPage_eq (keyword : Option String) (page : List PrivateZoneRecord)
    (hsub : keyword ≠ none → ∀ r ∈ page, r.SubDomain.isSome = true) :
    ∀ (records : List Record) (total : Nat),
      scanPage keyword page records total =
        some (records ++ (page.filter (keeps keyword)).map toRecord, total + page.length) := by
  induction page with
  | nil => intro records total; simp [scanPage]
  | cons r rest ih =>
    intro records total
    have hrest : keyword ≠ none → ∀ x ∈ rest, x.SubDomain.isSome = true :=
      fun hk x hx => hsub hk x (List.mem_cons_of_mem _ hx)
    cases keyword with
    | none =>
      simp [scanPage, keeps, ih hrest, List.filter_cons, Nat.add_assoc, Nat.add_comm 1]
    | some kw =>
      have hr := hsub (by simp) r (List.mem_cons_self _ _)
      cases hs : r.SubDomain with
      | none => simp [hs] at hr
      | some sub =>
        by_cases hc : stringsContains sub kw = true
        · simp [scanPage, keeps, hs, hc, ih hrest, List.filter_cons, Nat.add_assoc,
            Nat.add_comm 1]
        · simp [scanPage, keeps, hs, hc, ih hrest, List.filter_cons, Nat.add_assoc,
            Nat.add_comm 1]

/-- The first of `k + 1` further calls is at offset `sent + 100`. -/
theorem furtherCalls_succ (zoneId : Option String) (sent k : Nat) :
    furtherCalls zoneId sent (k + 1) =
      Call.DescribePrivateZoneRecordList
        { ZoneId := zoneId, Offset := some ((sent + 100 : Nat) : Int), Limit := some 100 } ::
      furtherCalls zoneId (sent + 100) k := by
  simp only [furtherCalls, List.range_succ_eq_map, List.map_cons, List.map_map]
  congr 1
  apply List.map_congr_left
  intro j _
  simp only [Function.comp]
  congr 3
  omega

/-- The loop against the simulated provider holding `done ++ rest`, entered
    with the page `rest.take 100` after `done.length` raw records, as many
    records kept as received, and every record before the last page of `rest`
    kept: with fuel above `(rest.length - 1) / 100` it returns the records kept
    so far followed by the kept records of `rest`, after one further call per
    remaining page, each at the raw offset. -/
theorem recordLoop_sim (keyword zoneId : Option String) :
    ∀ (fuel : Nat) (done rest : List PrivateZoneRecord) (offset : Option Int)
      (records : List Record) (tr : List Call),
      (keyword ≠ none → ∀ r ∈ rest, r.SubDomain.isSome = true) →
      (∀ r ∈ rest.take (100 * ((rest.length - 1) / 100)), keeps keyword r = true) →
      records.length = done.length →
      (rest.length - 1) / 100 < fuel →
      recordLoop (simProvider (done ++ rest)) keyword fuel
          { ZoneId := zoneId, Offset := offset, Limit := some 100 }
          { RecordSet := rest.take 100, TotalCount := some ((done ++ rest).length : Int) }
          records done.length tr =
        (some (.ok { RecordList := records ++ (rest.filter (keeps keyword)).map toRecord
                     TotalCount :=
                       some ((records ++ (rest.filter (keeps keyword)).map toRecord).length : Int) }),
          tr ++ furtherCalls zoneId done.length ((rest.length - 1) / 100)) := by
  intro fuel
  induction fuel with
  | zero => intro _ _ _ _ _ _ _ _ h; omega
  | succ fuel ih =>
    intro done rest offset records tr hsub hfull hlen hfuel
    have hpage : keyword ≠ none → ∀ r ∈ rest.take 100, r.SubDomain.isSome = true :=
      fun hk r hr => hsub hk r (List.mem_of_mem_take hr)
    unfold recordLoop
    simp only [scanPage_eq keyword (rest.take 100) hpage, castToInt64, Option.getD_some]
    by_cases hshort : rest.length ≤ 100
    · have h0 : (rest.length - 1) / 100 = 0 := by omega
      have ht : rest.take 100 = rest := List.take_of_length_le hshort
      simp [ht, h0, furtherCalls]
    · have hlong : 100 < rest.length := by omega
      have hk : (rest.length - 1) / 100 = ((rest.drop 100).length - 1) / 100 + 1 := by
        simp only [List.length_drop]; omega
      have hall : ∀ r ∈ rest.take 100, keeps keyword r = true := by
        intro r hr
        apply hfull
        have hle : 100 ≤ 100 * ((rest.length - 1) / 100) := by omega
        exact (List.take_subset_take_left rest hle) hr
      have hfilter : (rest.take 100).filter (keeps keyword) = rest.take 100 :=
        List.filter_eq_self.mpr hall
      have htl : (rest.take 100).length = 100 := by
        simp only [List.length_take]; omega
      have hne : ¬ (((done ++ rest).length : Int) = ((done.length + (rest.take 100).length : Nat) : Int)) := by
        simp only [List.length_append, htl]; omega
      simp only [hne, if_false, hfilter]
      have hlen1 : (records ++ (rest.take 100).map toRecord).length = done.length + 100 := by
        simp only [List.length_append, List.length_map, htl, hlen]
      have hsplit : done ++ rest = (done ++ rest.take 100) ++ rest.drop 100 := by
        simp [List.append_assoc, List.take_append_drop]
      have hresp : (simProvider (done ++ rest)).DescribePrivateZoneRecordList tr
            { ZoneId := zoneId
              Offset := some ((records ++ (rest.take 100).map toRecord).length : Int)
              Limit := some 100 } =
          .ok { RecordSet := (rest.drop 100).take 100
                TotalCount := some (((done ++ rest.take 100) ++ rest.drop 100).length : Int) } := by
        simp only [simProvider, hlen1, Option.getD_some, Int.toNat_ofNat]
        rw [← hsplit]
        congr 2
        rw [List.drop_append_eq_append_drop]
        have : List.drop (done.length + 100) done = [] := List.drop_of_length_le (by omega)
        simp [this]
      simp only [hresp]
      have hdl : (done ++ rest.take 100).length = done.length + 100 := by
        simp only [List.length_append, htl]
      have := ih (done ++ rest.take 100) (rest.drop 100)
        (some ((records ++ (rest.take 100).map toRecord).length : Int))
        (records ++ (rest.take 100).map toRecord)
        (tr ++ [Call.DescribePrivateZoneRecordList
            { ZoneId := zoneId
              Offset := some ((records ++ (rest.take 100).map toRecord).length : Int)
              Limit := some 100 }])
        (fun hk r hr => hsub hk r (List.mem_of_mem_drop hr))
        (by
          intro r hr
          apply hfull
          rw [hk, Nat.mul_add, Nat.mul_one, Nat.add_comm, List.take_add]
          exact List.mem_append_right _ hr)
        (by rw [hlen1, hdl])
        (by omega)
      rw [hdl] at this
      rw [htl, hsplit, this, hk, furtherCalls_succ, hlen1]
      have hf : rest.filter (keeps keyword) =
          rest.take 100 ++ (rest.drop 100).filter (keeps keyword) := by
        conv_lhs => rw [← List.take_append_drop 100 rest, List.filter_append, hfilter]
      simp [hf, List.append_assoc]

/-- The record-list requests of a concatenated trace. -/
theorem recordListRequests_append (a b : List Call) :
    recordListRequests (a ++ b) = recordListRequests a ++ recordListRequests b := by
  induction a with
  | nil => rfl
  | cons c t ih => cases c <;> simp [recordListRequests, ih]

/-- The record-list requests of the further calls. -/
theorem recordListRequests_furtherCalls (zoneId : Option String) (sent k : Nat) :
    recordListRequests (furtherCalls zoneId sent k) =
      (List.range k).map fun j =>
        ({ ZoneId := zoneId, Offset := some ((sent + 100 * (j + 1) : Nat) : Int)
           Limit := some 100 } : RecordListRequest) := by
  unfold furtherCalls
  induction (List.range k) with
  | nil => rfl
  | cons j t ih => simp only [List.map_cons, recordListRequests, ih]

/-- Against the simulated provider every name resolves, with no record-list
    call. -/
theorem getDomainIdByname_sim (raw : List PrivateZoneRecord) (tr : List Call)
    (profile domain : String) :
    ∃ zoneId tr2, getDomainIdByname (simProvider raw) tr profile domain = (.ok zoneId, tr2) ∧
      recordListRequests tr2 = recordListRequests tr := by
  unfold getDomainIdByname
  by_cases hp : hasPrefix domain "zone-" = true
  · exact ⟨domain, tr, by simp [hp], rfl⟩
  · refine ⟨"zone-sim", tr ++ [Call.GetTencentPrivateDNSClient profile] ++
      [Call.DescribePrivateZoneList (some domain)], ?_, ?_⟩
    · simp [hp, DescribePrivateDomainList, simProvider, toPrivateDomain, simZone, castToString]
    · simp [recordListRequests_append, recordListRequests]

/-- The full listing against the simulated provider, with or without keyword,
    when every record before the last page is kept: it returns the kept
    records in provider order after the calls at offsets unset, 100, 200, ...,
    one per page. -/
theorem DescribePrivateRecordList_sim (raw : List PrivateZoneRecord) (keyword : Option String)
    (profile domain : String) (fuel : Nat)
    (hsub : keyword ≠ none → ∀ r ∈ raw, r.SubDomain.isSome = true)
    (hfull : ∀ r ∈ raw.take (100 * ((raw.length - 1) / 100)), keeps keyword r = true)
    (hfuel : (raw.length - 1) / 100 < fuel) :
    ∃ zoneId tr,
      DescribePrivateRecordList (simProvider raw) fuel [] profile
          { Domain := some domain, Keyword := keyword } =
        (some (.ok { RecordList := (raw.filter (keeps keyword)).map toRecord
                     TotalCount := some ((raw.filter (keeps keyword)).length : Int) }), tr) ∧
      recordListRequests tr =
        { ZoneId := some zoneId, Offset := none, Limit := some 100 } ::
          (List.range ((raw.length - 1) / 100)).map fun j =>
            ({ ZoneId := some zoneId, Offset := some ((100 * (j + 1) : Nat) : Int)
               Limit := some 100 } : RecordListRequest) := by
  obtain ⟨zoneId, tr2, hz, htr2⟩ :=
    getDomainIdByname_sim raw ([] ++ [Call.GetTencentPrivateDNSClient profile]) profile domain
  have hloop := recordLoop_sim keyword (some zoneId) fuel [] raw none []
    (tr2 ++ [Call.DescribePrivateZoneRecordList
      { ZoneId := some zoneId, Offset := none, Limit := some 100 }]) hsub hfull rfl hfuel
  refine ⟨zoneId, tr2 ++ [Call.DescribePrivateZoneRecordList
      { ZoneId := some zoneId, Offset := none, Limit := some 100 }] ++
        furtherCalls (some zoneId) 0 ((raw.length - 1) / 100), ?_, ?_⟩
  · unfold DescribePrivateRecordList
    simp only [hz]
    simp only [simProvider, Option.getD_none, Option.getD_some, Int.toNat_zero, List.drop_zero,
      Int.toNat_ofNat] at hloop ⊢
    simp only [List.nil_append, List.length_nil, List.length_map] at hloop
    exact hloop
  · simp [recordListRequests_append, recordListRequests_furtherCalls, htr2, recordListRequests]

/-- One iteration of the loop against the simulated provider when the raw count
    has not reached the reported total: the next request carries the number of
    records kept so far as its offset. -/
theorem recordLoop_sim_step (raw : List PrivateZoneRecord) (keyword : Option String)
    (fuel : Nat) (request : RecordListRequest) (response : RecordListResponse)
    (records : List Record) (total : Nat) (tr : List Call)
    (hsub : keyword ≠ none → ∀ r ∈ response.RecordSet, r.SubDomain.isSome = true)
    (hne : castToInt64 response.TotalCount ≠ ((total + response.RecordSet.length : Nat) : Int)) :
    recordLoop (simProvider raw) keyword (fuel + 1) request response records total tr =
      recordLoop (simProvider raw) keyword fuel
        { request with
          Offset := some ((records ++
            (response.RecordSet.filter (keeps keyword)).map toRecord).length : Int) }
        { RecordSet := (raw.drop (records ++
              (response.RecordSet.filter (keeps keyword)).map toRecord).length).take
                (request.Limit.getD 100).toNat
          TotalCount := some (raw.length : Int) }
        (records ++ (response.RecordSet.filter (keeps keyword)).map toRecord)
        (total + response.RecordSet.length)
        (tr ++ [Call.DescribePrivateZoneRecordList
          { request with
            Offset := some ((records ++
              (response.RecordSet.filter (keeps keyword)).map toRecord).length : Int) }]) := by
  conv_lhs => unfold recordLoop
  simp only [scanPage_eq keyword response.RecordSet hsub, hne, if_false, simProvider,
    Option.getD_some, Int.toNat_ofNat]

/-- Once the raw count has passed the reported total the loop never ends: the
    count only grows, so it never equals the total again. -/
theorem recordLoop_sim_overrun (raw : List PrivateZoneRecord) (keyword : Option String)
    (hsub : keyword ≠ none → ∀ r ∈ raw, r.SubDomain.isSome = true) :
    ∀ (fuel : Nat) (request : RecordListRequest) (response : RecordListResponse)
      (records : List Record) (total : Nat) (tr : List Call),
      response.TotalCount = some (raw.length : Int) →
      (∀ r ∈ response.RecordSet, r ∈ raw) →
      raw.length < total + response.RecordSet.length →
      (recordLoop (simProvider raw) keyword fuel request response records total tr).1 = none := by
  intro fuel
  induction fuel with
  | zero => intros; rfl
  | succ fuel ih =>
    intro request response records total tr htc hmem hlt
    rw [recordLoop_sim_step raw keyword fuel request response records total tr
      (fun hk r hr => hsub hk r (hmem r hr))
      (by rw [htc]; simp only [castToInt64, Option.getD_some]; omega)]
    apply ih
    · rfl
    · intro r hr
      exact List.mem_of_mem_drop (List.mem_of_mem_take hr)
    · omega

set_option maxRecDepth 100000 in
/-- In the concrete scenario of the spec (250 raw records, 12 matching `api`)
    the listing never returns, whatever the fuel: the raw count passes 250
    without ever being equal to it. -/
theorem DescribePrivateRecordList_scenario_never_returns (fuel : Nat) :
    (DescribePrivateRecordList (simProvider scenarioRaw) fuel [] "default" scenarioInput).1 =
      none := by
  have hsub : (some "api" : Option String) ≠ none → ∀ r ∈ scenarioRaw, r.SubDomain.isSome = true := by
    intro _; decide
  have hrun : DescribePrivateRecordList (simProvider scenarioRaw) fuel [] "default" scenarioInput =
      recordLoop (simProvider scenarioRaw) (some "api") fuel
        { ZoneId := some "zone-1", Offset := none, Limit := some 100 }
        { RecordSet := scenarioRaw.take 100, TotalCount := some (scenarioRaw.length : Int) } [] 0
        [Call.GetTencentPrivateDNSClient "default",
         Call.DescribePrivateZoneRecordList
           { ZoneId := some "zone-1", Offset := none, Limit := some 100 }] := by
    have hp : hasPrefix "zone-1" "zone-" = true := by decide
    simp [DescribePrivateRecordList, getDomainIdByname, hp, simProvider, scenarioInput]
  rw [hrun]
  match fuel with
  | 0 => rfl
  | 1 => decide
  | fuel + 2 =>
    have h1 : ((scenarioRaw.take 100).filter (keeps (some "api"))).length = 5 := by decide
    have hl1 : (scenarioRaw.take 100).length = 100 := by decide
    have hN : scenarioRaw.length = 250 := by decide
    rw [recordLoop_sim_step scenarioRaw (some "api") (fuel + 1) _ _ [] 0 _
      (fun hk r hr => hsub hk r (List.mem_of_mem_take hr))
      (by simp only [castToInt64, Option.getD_some, hl1, hN]; omega)]
    simp only [List.nil_append, List.length_map, h1, hl1, Option.getD_some]
    have h2 : (((scenarioRaw.drop 5).take (100 : Int).toNat).filter (keeps (some "api"))).length = 4 := by
      decide
    have hl2 : ((scenarioRaw.drop 5).take (100 : Int).toNat).length = 100 := by decide
    rw [recordLoop_sim_step scenarioRaw (some "api") fuel _ _ _ _ _
      (fun hk r hr => hsub hk r (List.mem_of_mem_drop (List.mem_of_mem_take hr)))
      (by simp only [castToInt64, Option.getD_some, hl2, hN]; omega)]
    apply recordLoop_sim_overrun scenarioRaw (some "api") hsub
    · rfl
    · intro r hr
      exact List.mem_of_mem_drop (List.mem_of_mem_take hr)
    · simp only [Option.getD_some, List.length_take, List.length_drop, List.length_append,
        List.length_map, h1, h2, hN]
      omega

set_option maxRecDepth 100000 in
/-- C1 (code defect). In the concrete scenario of the spec (a provider holding
    250 raw records, page size 100, 12 records matching the keyword), the
    offsets sent on the first three record-list calls are 0, 5 and 9, the
    numbers of records retained after filtering, where the claim has 0, 100
    and 200, the numbers of raw records received; after these three calls the
    loop is still running. -/
theorem DescribePrivateRecordList_offset_is_filtered_count :
    sentOffsets (DescribePrivateRecordList (simProvider scenarioRaw) 2 [] "default"
        scenarioInput).2 = [0, 5, 9] ∧
      (DescribePrivateRecordList (simProvider scenarioRaw) 2 [] "default" scenarioInput).1 =
        none := by
  decide

set_option maxRecDepth 100000 in
/-- C2 (counterexample). Two inputs at which the claim fails. On the empty
    provider (`N = 0`) the listing returns the empty list after one record-list
    call, where `ceil(0 / 100) = 0`. On the concrete scenario of the spec
    (`N = 250`, 12 matches) the listing has not returned after three loop
    iterations and has by then sent four record-list calls, where
    `ceil(250 / 100) = 3`. -/
theorem DescribePrivateRecordList_call_count_counterexample :
    ((DescribePrivateRecordList (simProvider []) 1 [] "default" scenarioInput).1 =
        some (.ok { RecordList := [], TotalCount := some 0 }) ∧
      (recordListRequests
        (DescribePrivateRecordList (simProvider []) 1 [] "default" scenarioInput).2).length = 1 ∧
      (([] : List PrivateZoneRecord).length + 99) / 100 = 0) ∧
    ((DescribePrivateRecordList (simProvider scenarioRaw) 3 [] "default" scenarioInput).1 =
        none ∧
      (recordListRequests
        (DescribePrivateRecordList (simProvider scenarioRaw) 3 [] "default"
          scenarioInput).2).length = 4 ∧
      (scenarioRaw.length + 99) / 100 = 3) := by
  decide

/-- C2 (amended). For every simulated offset provider holding `N` raw records
    with subdomain labels and every keyword matched by all the records that
    lie before the last page of 100 (in particular whenever `N ≤ 100`), the
    listing terminates (any fuel above `(N - 1) / 100` is enough), returns
    exactly the matching records in provider order with `TotalCount` their
    number, and performs exactly `max 1 (ceil(N / 100))` record-list calls. -/
theorem DescribePrivateRecordList_sim_filtered (raw : List PrivateZoneRecord)
    (keyword profile domain : String) (fuel : Nat)
    (hsub : ∀ r ∈ raw, r.SubDomain.isSome = true)
    (hfull : ∀ r ∈ raw.take (100 * ((raw.length - 1) / 100)), keeps (some keyword) r = true)
    (hfuel : (raw.length - 1) / 100 < fuel) :
    ∃ tr,
      DescribePrivateRecordList (simProvider raw) fuel [] profile
          { Domain := some domain, Keyword := some keyword } =
        (some (.ok { RecordList := (raw.filter (keeps (some keyword))).map toRecord
                     TotalCount := some ((raw.filter (keeps (some keyword))).length : Int) }),
          tr) ∧
      (recordListRequests tr).length = max 1 ((raw.length + 99) / 100) := by
  obtain ⟨zoneId, tr, hrun, hreq⟩ :=
    DescribePrivateRecordList_sim raw (some keyword) profile domain fuel (fun _ => hsub) hfull
      hfuel
  refine ⟨tr, hrun, ?_⟩
  rw [hreq]
  simp only [List.length_cons, List.length_map, List.length_range]
  omega

set_option maxRecDepth 100000 in
/-- Witness of C2 (amended): 120 records on two pages, all of the first page
    and three of the second matching `api`. -/
theorem DescribePrivateRecordList_sim_filtered_witness :
    ∃ tr,
      DescribePrivateRecordList (simProvider pagedRaw) 2 [] "default"
          { Domain := some "zone-1", Keyword := some "api" } =
        (some (.ok { RecordList := (pagedRaw.filter (keeps (some "api"))).map toRecord
                     TotalCount := some ((pagedRaw.filter (keeps (some "api"))).length : Int) }),
          tr) ∧
      (recordListRequests tr).length = max 1 ((pagedRaw.length + 99) / 100) :=
  DescribePrivateRecordList_sim_filtered pagedRaw "api" "default" "zone-1" 2
    (by decide) (by decide) (by decide)

/-! ## Tencent private DNS: bounded pages -/

set_option maxRecDepth 100000 in
/-- C3 (code defect). Page 2 requested with no limit: the request sent carries
    `Limit = 100` and `Offset = 0`, where the claim has `(2 - 1) * 100 = 100`;
    the first page is returned again, with `NextPage = 3`. -/
theorem DescribePrivateRecordListWithPages_default_limit_offset :
    DescribePrivateRecordListWithPages (simProvider scenarioRaw) [] "default"
        { Domain := some "zone-1", Limit := none, Page := some 2 } =
      (.ok { PrePage := some 1, NextPage := some 3
             RecordList := (scenarioRaw.take 100).map toRecord },
        [Call.GetTencentPrivateDNSClient "default",
         Call.DescribePrivateZoneRecordList
           { ZoneId := some "zone-1", Offset := some 0, Limit := some 100 }]) := by
  decide

/-- Inside the `int64` range `wrap64` is the identity. -/
theorem wrap64_of_range (x : Int) (hlo : -2 ^ 63 ≤ x) (hhi : x < 2 ^ 63) : wrap64 x = x := by
  unfold wrap64
  norm_num at hlo hhi ⊢
  omega

/-- C4. Whenever the bounded-page listing returns a response, it has made a
    successful record-list call with `Limit = s`, the caller's limit or 100 by
    default, and with `p` the requested page (1 when none is given, and
    `1 ≤ p`, `p + 1` an `int64`, when one is): `NextPage` is `p + 1` when the
    provider returned exactly `s` records and nil when it returned fewer;
    `PrePage` is nil when `p = 1` and `p - 1` when `p > 1`. -/
theorem DescribePrivateRecordListWithPages_page_tokens (P : Provider) (tr : List Call)
    (profile : String) (input : DescribePrivateDnsRecordListWithPageRequest)
    (resp : ListRecordsPageResponse) (tr' : List Call)
    (hrun : DescribePrivateRecordListWithPages P tr profile input = (.ok resp, tr'))
    (hpage : ∀ p, input.Page = some p → 1 ≤ p ∧ p + 1 < 2 ^ 63) :
    ∃ tr2 request response,
      tr' = tr2 ++ [Call.DescribePrivateZoneRecordList request] ∧
      P.DescribePrivateZoneRecordList tr2 request = .ok response ∧
      request.Limit = some (input.Limit.getD 100) ∧
      resp.RecordList = response.RecordSet.map toRecord ∧
      ((response.RecordSet.length : Int) = input.Limit.getD 100 →
        resp.NextPage = some (input.Page.getD 1 + 1)) ∧
      ((response.RecordSet.length : Int) < input.Limit.getD 100 → resp.NextPage = none) ∧
      (input.Page.getD 1 = 1 → resp.PrePage = none) ∧
      (1 < input.Page.getD 1 → resp.PrePage = some (input.Page.getD 1 - 1)) := by
  unfold DescribePrivateRecordListWithPages at hrun
  simp only [errorf] at hrun
  split at hrun
  · simp at hrun
  · split at hrun
    · simp at hrun
    · split at hrun
      · simp at hrun
      · simp at hrun
      · rename_i zoneId tr2 _
        split at hrun
        · simp at hrun
        · simp at hrun
        · rename_i response hresp
          simp only [Prod.mk.injEq, Outcome.ok.injEq] at hrun
          obtain ⟨hresp', htr⟩ := hrun
          subst hresp'
          refine ⟨tr2, _, response, htr.symm, hresp, ?_, rfl, ?_, ?_, ?_, ?_⟩
          · cases hl : input.Limit <;> simp [castToInt64]
          · intro hfull
            cases hl : input.Limit <;> cases hp : input.Page <;>
              simp only [castToInt64, hl, hp, Option.getD_some, Option.getD_none,
                List.length_map] at hfull ⊢
            · simp [hfull]
            · rename_i p
              have := hpage p hp
              rw [if_pos hfull.symm, wrap64_of_range _ (by omega) (by omega)]
            · simp [hfull]
            · rename_i p
              have := hpage p hp
              rw [if_pos hfull.symm, wrap64_of_range _ (by omega) (by omega)]
          · intro hshort
            cases hl : input.Limit <;>
              simp only [castToInt64, hl, Option.getD_some, Option.getD_none,
                List.length_map] at hshort ⊢
            · rw [if_neg (by omega)]
            · rw [if_neg (by omega)]
          · intro h1
            cases hp : input.Page <;> simp only [hp, Option.getD_some, Option.getD_none] at h1 ⊢
            rw [if_neg (by omega)]
          · intro h1
            cases hp : input.Page <;> simp only [hp, Option.getD_some, Option.getD_none] at h1 ⊢
            · omega
            · rename_i p
              have := hpage p hp
              rw [if_pos h1, wrap64_of_range _ (by omega) (by omega)]

set_option maxRecDepth 100000 in
/-- Witness of C4: page 2 of size 10 of a provider holding 120 records. -/
theorem DescribePrivateRecordListWithPages_page_tokens_witness :
    ∃ tr2 request response,
      [Call.GetTencentPrivateDNSClient "default",
          Call.DescribePrivateZoneRecordList pagesRequest] =
        tr2 ++ [Call.DescribePrivateZoneRecordList request] ∧
      (simProvider pagedRaw).DescribePrivateZoneRecordList tr2 request = .ok response ∧
      request.Limit = some (pagesInput.Limit.getD 100) ∧
      pagesResponse.RecordList = response.RecordSet.map toRecord ∧
      ((response.RecordSet.length : Int) = pagesInput.Limit.getD 100 →
        pagesResponse.NextPage = some (pagesInput.Page.getD 1 + 1)) ∧
      ((response.RecordSet.length : Int) < pagesInput.Limit.getD 100 →
        pagesResponse.NextPage = none) ∧
      (pagesInput.Page.getD 1 = 1 → pagesResponse.PrePage = none) ∧
      (1 < pagesInput.Page.getD 1 →
        pagesResponse.PrePage = some (pagesInput.Page.getD 1 - 1)) :=
  DescribePrivateRecordListWithPages_page_tokens (simProvider pagedRaw) [] "default"
    pagesInput pagesResponse
    [Call.GetTencentPrivateDNSClient "default", Call.DescribePrivateZoneRecordList pagesRequest]
    (by decide)
    (by intro p hp; cases hp; exact ⟨by decide, by decide⟩)

/-! ## Tencent private DNS: zone resolution -/

/-- A successful zone listing returns the image of the provider's zones. -/
theorem DescribePrivateDomainList_ok (P : Provider) (tr : List Call) (profile : String)
    (input : DescribeDomainListRequest) (resp : DescribePrivateDomainListResponse)
    (tr1 : List Call)
    (h : DescribePrivateDomainList P tr profile input = (.ok resp, tr1)) :
    ∃ zones : List PrivateZone, resp.DomainList = zones.map toPrivateDomain := by
  unfold DescribePrivateDomainList at h
  simp only [errorf] at h
  split at h
  · simp at h
  · split at h
    · simp at h
    · simp at h
    · rename_i response _
      simp only [Prod.mk.injEq, Outcome.ok.injEq] at h
      exact ⟨response.PrivateZoneSet, by rw [← h.1]⟩

/-- C5. For a name that does not start with `zone-` and a successful
    keyword-filtered zone listing: when the listing yields exactly one zone,
    resolution returns that zone's identifier; when it yields none or two or
    more, resolution returns the error "domain not found,or more than one" and
    no identifier. -/
theorem getDomainIdByname_unique_match (P : Provider) (tr : List Call)
    (profile domain : String) (resp : DescribePrivateDomainListResponse) (tr1 : List Call)
    (hpre : hasPrefix domain "zone-" = false)
    (hlist : DescribePrivateDomainList P tr profile { DomainKeyword := some domain } =
      (.ok resp, tr1)) :
    (resp.DomainList.length = 1 →
      ∃ d id, resp.DomainList = [d] ∧ d.DomainId = some id ∧
        getDomainIdByname P tr profile domain = (.ok id, tr1)) ∧
    (resp.DomainList.length ≠ 1 →
      getDomainIdByname P tr profile domain =
        (.err (.other ("domain not found,or more than one,filter by keyword:" ++ domain)),
          tr1)) := by
  obtain ⟨zones, hz⟩ := DescribePrivateDomainList_ok P tr profile _ resp tr1 hlist
  constructor
  · intro hlen
    match zones, hz with
    | [], hz => rw [hz] at hlen; simp at hlen
    | z :: rest, hz =>
      have hrest : rest = [] := by
        rw [hz] at hlen
        simpa using hlen
      subst hrest
      refine ⟨toPrivateDomain z, castToString z.ZoneId, by simpa using hz, rfl, ?_⟩
      unfold getDomainIdByname
      simp only [hpre, hlist, hz]
      simp [toPrivateDomain]
  · intro hlen
    unfold getDomainIdByname
    simp only [hpre, hlist]
    simp [hlen, errorf]

/-- Witness of C5: the simulated provider lists one zone for every keyword. -/
theorem getDomainIdByname_unique_match_witness :
    (([toPrivateDomain simZone].length = 1 →
      ∃ d id, [toPrivateDomain simZone] = [d] ∧ d.DomainId = some id ∧
        getDomainIdByname (simProvider []) [] "default" "example.internal" =
          (.ok id, [Call.GetTencentPrivateDNSClient "default",
            Call.DescribePrivateZoneList (some "example.internal")])) ∧
    ([toPrivateDomain simZone].length ≠ 1 →
      getDomainIdByname (simProvider []) [] "default" "example.internal" =
        (.err (.other ("domain not found,or more than one,filter by keyword:" ++
            "example.internal")),
          [Call.GetTencentPrivateDNSClient "default",
            Call.DescribePrivateZoneList (some "example.internal")]))) :=
  getDomainIdByname_unique_match (simProvider []) [] "default" "example.internal"
    { DomainList := [toPrivateDomain simZone], TotalCount := some 1 }
    [Call.GetTencentPrivateDNSClient "default",
      Call.DescribePrivateZoneList (some "example.internal")]
    (by decide) (by decide)

/-! ## Object storage: the lifecycle translators -/

/-- A sequence of two steps returns a value only if both do. -/
theorem Outcome.bind_eq_ok {α β : Type} (x : Outcome α) (f : α → Outcome β) (b : β)
    (h : x.bind f = .ok b) : ∃ a, x = .ok a ∧ f a = .ok b := by
  cases x with
  | ok a => exact ⟨a, rfl, h⟩
  | err e => simp [Outcome.bind] at h
  | panic => simp [Outcome.bind] at h

/-- Invariant of the COS loop: on success the slice keeps its length, slot
    `i + j` holds the rule built from the `j`-th remaining lifecycle, and the
    slots below `i` are untouched. -/
theorem cosLoop_ok : ∀ (ls : List Lifecycle) (i : Nat) (acc out : List BucketLifecycleRule),
    cosLoop ls i acc = .ok out → i + ls.length ≤ acc.length →
    out.length = acc.length ∧
      (∀ j l, ls[j]? = some l → ∃ r, cosRule l = .ok r ∧ out[i + j]? = some r) ∧
      (∀ k, k < i → out[k]? = acc[k]?) := by
  intro ls
  induction ls with
  | nil =>
    intro i acc out h _
    simp only [cosLoop, Outcome.ok.injEq] at h
    subst h
    exact ⟨rfl, by simp, fun _ _ => rfl⟩
  | cons l rest ih =>
    intro i acc out h hlen
    simp only [cosLoop] at h
    obtain ⟨r, hr, hloop⟩ := Outcome.bind_eq_ok _ _ _ h
    simp only [List.length_cons] at hlen
    obtain ⟨h1, h2, h3⟩ := ih (i + 1) (acc.set i r) out hloop
      (by simp only [List.length_set]; omega)
    simp only [List.length_set] at h1
    have hi : out[i]? = some r := by
      rw [h3 i (by omega), List.getElem?_set_self (by omega)]
    refine ⟨h1, ?_, ?_⟩
    · intro j l' hj
      cases j with
      | zero =>
        simp only [List.getElem?_cons_zero, Option.some.injEq] at hj
        subst hj
        exact ⟨r, hr, by simpa using hi⟩
      | succ j =>
        simp only [List.getElem?_cons_succ] at hj
        obtain ⟨r', hr', ho⟩ := h2 j l' hj
        exact ⟨r', hr', by rw [← ho]; congr 1; omega⟩
    · intro k hk
      rw [h3 k (by omega), List.getElem?_set_ne (by omega)]

/-- Invariant of the AWS loop, as `cosLoop_ok`. -/
theorem awsLoop_ok : ∀ (ls : List Lifecycle) (i : Nat) (acc out : List (Option S3Rule)),
    awsLoop ls i acc = .ok out → i + ls.length ≤ acc.length →
    out.length = acc.length ∧
      (∀ j l, ls[j]? = some l → ∃ r, awsRule l = .ok r ∧ out[i + j]? = some (some r)) ∧
      (∀ k, k < i → out[k]? = acc[k]?) := by
  intro ls
  induction ls with
  | nil =>
    intro i acc out h _
    simp only [awsLoop, Outcome.ok.injEq] at h
    subst h
    exact ⟨rfl, by simp, fun _ _ => rfl⟩
  | cons l rest ih =>
    intro i acc out h hlen
    simp only [awsLoop] at h
    obtain ⟨r, hr, hloop⟩ := Outcome.bind_eq_ok _ _ _ h
    simp only [List.length_cons] at hlen
    obtain ⟨h1, h2, h3⟩ := ih (i + 1) (acc.set i (some r)) out hloop
      (by simp only [List.length_set]; omega)
    simp only [List.length_set] at h1
    have hi : out[i]? = some (some r) := by
      rw [h3 i (by omega), List.getElem?_set_self (by omega)]
    refine ⟨h1, ?_, ?_⟩
    · intro j l' hj
      cases j with
      | zero =>
        simp only [List.getElem?_cons_zero, Option.some.injEq] at hj
        subst hj
        exact ⟨r, hr, by simpa using hi⟩
      | succ j =>
        simp only [List.getElem?_cons_succ] at hj
        obtain ⟨r', hr', ho⟩ := h2 j l' hj
        exact ⟨r', hr', by rw [← ho]; congr 1; omega⟩
    · intro k hk
      rw [h3 k (by omega), List.getElem?_set_ne (by omega)]

/-- A COS rule carries the identifier and the filter of its lifecycle. -/
theorem cosRule_ok (l : Lifecycle) (r : BucketLifecycleRule) (h : cosRule l = .ok r) :
    l.ID = some r.ID ∧ r.Filter = cosFilter l := by
  unfold cosRule at h
  cases hid : l.ID with
  | none => simp [hid, errorf] at h
  | some id =>
    simp only [hid] at h
    obtain ⟨a1, _, h⟩ := Outcome.bind_eq_ok _ _ _ h
    obtain ⟨a2, _, h⟩ := Outcome.bind_eq_ok _ _ _ h
    obtain ⟨a3, _, h⟩ := Outcome.bind_eq_ok _ _ _ h
    obtain ⟨a4, _, h⟩ := Outcome.bind_eq_ok _ _ _ h
    obtain ⟨a5, _, h⟩ := Outcome.bind_eq_ok _ _ _ h
    simp only [Outcome.ok.injEq] at h
    subst h
    exact ⟨rfl, rfl⟩

/-- The prefix of the COS filter is the prefix of the lifecycle's filter. -/
theorem cosFilter_prefix_eq (l : Lifecycle) :
    (cosFilter l).map (fun f => f.Prefix) = l.prefixOf := by
  unfold cosFilter
  cases l.prefixOf <;> rfl

/-- An AWS rule carries the identifier and the prefix of its lifecycle. -/
theorem awsRule_ok (l : Lifecycle) (r : S3Rule) (h : awsRule l = .ok r) :
    r.ID = l.ID ∧ r.Prefix = l.prefixOf := by
  unfold awsRule at h
  cases hp : l.prefixOf with
  | none => simp [hp, errorf] at h
  | some p =>
    simp only [hp, Outcome.ok.injEq] at h
    subst h
    exact ⟨rfl, rfl⟩

/-- Both translators, on success: the native rule list is the pointwise
    translation of the input rule list. -/
theorem translation_ok_rules (c : CreateBucketLifecycleRequest) :
    (∀ opts, ToCOSLifecycle c = .ok opts →
      opts.Rules.length = c.Lifecycles.length ∧
      ∀ (i : Nat) (l : Lifecycle), c.Lifecycles[i]? = some l →
        ∃ r, opts.Rules[i]? = some r ∧ cosRule l = .ok r ∧ l.ID = some r.ID ∧
          r.Filter.map (fun f => f.Prefix) = l.prefixOf) ∧
    (∀ input, ToAWSS3Lifecycle c = .ok input →
      ∃ cfg, input.LifecycleConfiguration = some cfg ∧
        cfg.Rules.length = c.Lifecycles.length ∧
        ∀ (i : Nat) (l : Lifecycle), c.Lifecycles[i]? = some l →
          ∃ r, cfg.Rules[i]? = some (some r) ∧ awsRule l = .ok r ∧ r.ID = l.ID ∧
            r.Prefix = l.prefixOf) := by
  constructor
  · intro opts h
    unfold ToCOSLifecycle at h
    obtain ⟨rules, hloop, hopts⟩ := Outcome.bind_eq_ok _ _ _ h
    simp only [Outcome.ok.injEq] at hopts
    subst hopts
    obtain ⟨h1, h2, _⟩ := cosLoop_ok _ _ _ _ hloop (by simp)
    refine ⟨by simpa using h1, ?_⟩
    intro i l hl
    obtain ⟨r, hr, ho⟩ := h2 i l hl
    obtain ⟨hid, hf⟩ := cosRule_ok l r hr
    exact ⟨r, by simpa using ho, hr, hid, by rw [hf, cosFilter_prefix_eq]⟩
  · intro input h
    unfold ToAWSS3Lifecycle at h
    obtain ⟨rules, hloop, hin⟩ := Outcome.bind_eq_ok _ _ _ h
    simp only [Outcome.ok.injEq] at hin
    subst hin
    obtain ⟨h1, h2, _⟩ := awsLoop_ok _ _ _ _ hloop (by simp)
    refine ⟨_, rfl, by simpa using h1, ?_⟩
    intro i l hl
    obtain ⟨r, hr, ho⟩ := h2 i l hl
    obtain ⟨hid, hp⟩ := awsRule_ok l r hr
    exact ⟨r, by simpa using ho, hr, hid, hp⟩


/-- The COS loop body succeeds on a well-formed rule. -/
theorem cosRule_of_wellFormed (l : Lifecycle) (h : l.wellFormed = true) :
    ∃ r, cosRule l = .ok r := by
  simp only [Lifecycle.wellFormed, Lifecycle.missingRequiredField, Bool.and_eq_true,
    Bool.not_eq_true', Bool.or_eq_false_iff] at h
  obtain ⟨hid, ⟨⟨⟨hex, htr⟩, hnvt⟩, hnve⟩, hab⟩ := h
  have h1 : ∃ v, cosAbort l.AbortIncompleteMultipartUpload = .ok v := by
    unfold cosAbort
    cases ha : l.AbortIncompleteMultipartUpload with
    | none => exact ⟨_, rfl⟩
    | some x =>
      cases hd : x.DaysAfterInitiation with
      | none => simp [ha, hd] at hab
      | some d => simp [hd]
  have h2 : ∃ v, cosNoncurrentVersionExpiration l.NoncurrentVersionExpiration = .ok v := by
    unfold cosNoncurrentVersionExpiration
    cases ha : l.NoncurrentVersionExpiration with
    | none => exact ⟨_, rfl⟩
    | some x =>
      cases hd : x.Days with
      | none => simp [ha, hd] at hnve
      | some d => simp [hd]
  have h3 : ∃ v, cosNoncurrentVersionTransition l.NoncurrentVersionTransition = .ok v := by
    unfold cosNoncurrentVersionTransition
    cases ha : l.NoncurrentVersionTransition with
    | none => exact ⟨_, rfl⟩
    | some x =>
      cases hd : x.Days with
      | none => simp [ha, hd] at hnvt
      | some d =>
        cases hs : x.StorageClass with
        | none => simp [ha, hs] at hnvt
        | some sc => simp [hd, hs]
  have h4 : ∃ v, cosExpiration l.Expiration = .ok v := by
    unfold cosExpiration
    cases ha : l.Expiration with
    | none => exact ⟨_, rfl⟩
    | some x =>
      cases hd : x.Days with
      | none => simp [ha, hd] at hex
      | some d => simp [hd]
  have h5 : ∃ v, cosTransition l.Transition = .ok v := by
    unfold cosTransition
    cases ha : l.Transition with
    | none => exact ⟨_, rfl⟩
    | some x =>
      cases hd : x.Days with
      | none => simp [ha, hd] at htr
      | some d =>
        cases hs : x.StorageClass with
        | none => simp [ha, hs] at htr
        | some sc => simp [hd, hs]
  obtain ⟨v1, h1⟩ := h1
  obtain ⟨v2, h2⟩ := h2
  obtain ⟨v3, h3⟩ := h3
  obtain ⟨v4, h4⟩ := h4
  obtain ⟨v5, h5⟩ := h5
  cases hi : l.ID with
  | none => simp [hi] at hid
  | some id =>
    unfold cosRule
    simp only [hi, h1, h2, h3, h4, h5, Outcome.bind]
    exact ⟨_, rfl⟩

/-- The COS loop succeeds on well-formed rules. -/
theorem cosLoop_of_wellFormed : ∀ (ls : List Lifecycle),
    (∀ x ∈ ls, x.wellFormed = true) →
    ∀ (i : Nat) (acc : List BucketLifecycleRule), ∃ out, cosLoop ls i acc = .ok out := by
  intro ls
  induction ls with
  | nil => intro _ i acc; exact ⟨acc, rfl⟩
  | cons l rest ih =>
    intro hwf i acc
    obtain ⟨r, hr⟩ := cosRule_of_wellFormed l (hwf l (List.mem_cons_self _ _))
    obtain ⟨out, ho⟩ := ih (fun x hx => hwf x (List.mem_cons_of_mem _ hx)) (i + 1) (acc.set i r)
    exact ⟨out, by simp only [cosLoop, hr, Outcome.bind, ho]⟩

/-- The AWS loop fails with "filter is required" as soon as some rule has no
    prefix filter: no other return lies before it. -/
theorem awsLoop_filter_required : ∀ (ls : List Lifecycle),
    (∃ x ∈ ls, x.prefixOf = none) →
    ∀ (i : Nat) (acc : List (Option S3Rule)),
      awsLoop ls i acc = .err (.other "filter is required") := by
  intro ls
  induction ls with
  | nil => intro h; simp at h
  | cons l rest ih =>
    intro h i acc
    cases hp : l.prefixOf with
    | none => simp [awsLoop, awsRule, hp, errorf, Outcome.bind]
    | some p =>
      have hrest : ∃ x ∈ rest, x.prefixOf = none := by
        obtain ⟨x, hx, hxp⟩ := h
        rcases List.mem_cons.mp hx with rfl | hx'
        · rw [hp] at hxp; cases hxp
        · exact ⟨x, hx', hxp⟩
      simp only [awsLoop, awsRule, hp, Outcome.bind]
      exact ih hrest _ _

/-- C7. In a set of rules that all have an identifier and well-formed optional
    sub-structures, take a rule with no prefix filter (no `Filter`, or a
    `Filter` with no `Prefix`): `ToAWSS3Lifecycle` fails with the validation
    error "filter is required", while `ToCOSLifecycle` succeeds and the rule it
    emits at that position has no `Filter`. -/
theorem lifecycle_filter_asymmetry (c : CreateBucketLifecycleRequest) (i : Nat) (l : Lifecycle)
    (hwf : ∀ x ∈ c.Lifecycles, x.wellFormed = true)
    (hl : c.Lifecycles[i]? = some l) (hno : l.prefixOf = none) :
    ToAWSS3Lifecycle c = .err (.other "filter is required") ∧
    ∃ opts r, ToCOSLifecycle c = .ok opts ∧ opts.Rules[i]? = some r ∧ cosRule l = .ok r ∧
      r.Filter = none := by
  constructor
  · unfold ToAWSS3Lifecycle
    rw [awsLoop_filter_required c.Lifecycles ⟨l, List.getElem?_mem hl, hno⟩]
    rfl
  · obtain ⟨out, ho⟩ := cosLoop_of_wellFormed c.Lifecycles hwf 0
      (List.replicate c.Lifecycles.length default)
    have hrun : ToCOSLifecycle c = .ok { XMLName := "LifecycleConfiguration", Rules := out } := by
      unfold ToCOSLifecycle
      rw [ho]
      rfl
    obtain ⟨_, h2, _⟩ := cosLoop_ok _ _ _ _ ho (by simp)
    obtain ⟨r, hr, hout⟩ := h2 i l hl
    refine ⟨_, r, hrun, by simpa using hout, hr, ?_⟩
    rw [(cosRule_ok l r hr).2]
    unfold cosFilter
    rw [hno]


/-- C6 (code defect). A two-rule set whose rule #2 has no identifier:
    `ToAWSS3Lifecycle` returns no error but a native structure with both rules,
    the second with a nil `ID`; `ToCOSLifecycle` rejects the same set with
    "id is required". -/
theorem ToAWSS3Lifecycle_accepts_missing_id :
    ToAWSS3Lifecycle missingIdRequest =
      .ok { Bucket := some "examplebucket-1250000000"
            LifecycleConfiguration := some { Rules :=
              [some { ID := some "rule-1", Status := some "Enabled", Prefix := some "logs/"
                      AbortIncompleteMultipartUpload := none, Expiration := none
                      NoncurrentVersionExpiration := none, NoncurrentVersionTransition := none
                      Transition := none },
               some { ID := none, Status := some "Enabled", Prefix := some "tmp/"
                      AbortIncompleteMultipartUpload := none, Expiration := none
                      NoncurrentVersionExpiration := none, NoncurrentVersionTransition := none
                      Transition := none }] } } ∧
    (awsOutputRules (ToAWSS3Lifecycle missingIdRequest)).length = 2 ∧
    ToCOSLifecycle missingIdRequest = .err (.other "id is required") := by
  decide

/-- C8 (code defect). An abort-incomplete-multipart-upload without
    days-after-initiation makes `ToCOSLifecycle` panic on the nil dereference
    and is accepted by `ToAWSS3Lifecycle`; an expiration without days is
    rejected by `ToCOSLifecycle` ("days is required") and accepted by
    `ToAWSS3Lifecycle`, which emits `Days = 0`. -/
theorem lifecycle_missing_field_not_rejected :
    ToCOSLifecycle abortWithoutDaysRequest = .panic ∧
    (ToAWSS3Lifecycle abortWithoutDaysRequest).isOk = true ∧
    ToCOSLifecycle expirationWithoutDaysRequest = .err (.other "days is required") ∧
    ToAWSS3Lifecycle expirationWithoutDaysRequest =
      .ok { Bucket := some "examplebucket-1250000000"
            LifecycleConfiguration := some { Rules :=
              [some { ID := some "rule-1", Status := some "Enabled", Prefix := some "logs/"
                      AbortIncompleteMultipartUpload := none
                      Expiration := some { Days := some 0 }
                      NoncurrentVersionExpiration := none, NoncurrentVersionTransition := none
                      Transition := none }] } } := by
  decide

/-- Witness of C7: a full rule followed by a rule with an empty filter. -/
theorem lifecycle_filter_asymmetry_witness :
    ToAWSS3Lifecycle noFilterRequest = .err (.other "filter is required") ∧
    ∃ opts r, ToCOSLifecycle noFilterRequest = .ok opts ∧ opts.Rules[1]? = some r ∧
      cosRule noFilterRule = .ok r ∧ r.Filter = none :=
  lifecycle_filter_asymmetry noFilterRequest 1 noFilterRule (by decide) (by decide) (by decide)

/-- C9. For each translator and every rule list on which it succeeds, the
    native rule list has the length of the input list and, at every index,
    the output rule is the translation of the input rule at that index: it
    carries that rule's identifier and prefix. -/
theorem lifecycle_translation_preserves_order (c : CreateBucketLifecycleRequest) :
    ((ToCOSLifecycle c).isOk = true →
      (cosOutputRules (ToCOSLifecycle c)).length = c.Lifecycles.length ∧
      ∀ (i : Nat) (l : Lifecycle), c.Lifecycles[i]? = some l →
        ∃ r, (cosOutputRules (ToCOSLifecycle c))[i]? = some r ∧ cosRule l = .ok r ∧
          l.ID = some r.ID ∧ r.Filter.map (fun f => f.Prefix) = l.prefixOf) ∧
    ((ToAWSS3Lifecycle c).isOk = true →
      (awsOutputRules (ToAWSS3Lifecycle c)).length = c.Lifecycles.length ∧
      ∀ (i : Nat) (l : Lifecycle), c.Lifecycles[i]? = some l →
        ∃ r, (awsOutputRules (ToAWSS3Lifecycle c))[i]? = some (some r) ∧ awsRule l = .ok r ∧
          r.ID = l.ID ∧ r.Prefix = l.prefixOf) := by
  constructor
  · intro hok
    cases h : ToCOSLifecycle c with
    | ok opts => exact (translation_ok_rules c).1 opts h
    | err e => rw [h] at hok; cases hok
    | panic => rw [h] at hok; cases hok
  · intro hok
    cases h : ToAWSS3Lifecycle c with
    | ok input =>
      obtain ⟨cfg, hcfg, hrest⟩ := (translation_ok_rules c).2 input h
      simpa only [awsOutputRules, hcfg] using hrest
    | err e => rw [h] at hok; cases hok
    | panic => rw [h] at hok; cases hok

/-- Witness of C9: two well-formed rules with prefix filters. -/
theorem lifecycle_translation_preserves_order_witness :
    ((cosOutputRules (ToCOSLifecycle orderedRequest)).length = orderedRequest.Lifecycles.length ∧
      ∀ (i : Nat) (l : Lifecycle), orderedRequest.Lifecycles[i]? = some l →
        ∃ r, (cosOutputRules (ToCOSLifecycle orderedRequest))[i]? = some r ∧
          cosRule l = .ok r ∧ l.ID = some r.ID ∧
          r.Filter.map (fun f => f.Prefix) = l.prefixOf) ∧
    ((awsOutputRules (ToAWSS3Lifecycle orderedRequest)).length =
        orderedRequest.Lifecycles.length ∧
      ∀ (i : Nat) (l : Lifecycle), orderedRequest.Lifecycles[i]? = some l →
        ∃ r, (awsOutputRules (ToAWSS3Lifecycle orderedRequest))[i]? = some (some r) ∧
          awsRule l = .ok r ∧ r.ID = l.ID ∧ r.Prefix = l.prefixOf) :=
  ⟨(lifecycle_translation_preserves_order orderedRequest).1 (by decide),
   (lifecycle_translation_preserves_order orderedRequest).2 (by decide)⟩

/-! ## Managed clusters: status strings -/

/-- The loop of `QueryEmrCluster` on complete clusters: it succeeds and appends
    the provider's state strings, in order. -/
theorem queryLoop_complete : ∀ (cs : List (Option ClusterSummary)) (acc : List EmrCluster),
    (∀ c ∈ cs, summaryComplete c = true) →
    ∃ out, queryLoop cs acc = .ok out ∧
      out.map (fun e => some e.Status) = acc.map (fun e => some e.Status) ++ cs.map summaryState := by
  intro cs
  induction cs with
  | nil => intro acc _; exact ⟨acc, rfl, by simp⟩
  | cons c rest ih =>
    intro acc hc
    have h0 := hc c (List.mem_cons_self _ _)
    obtain ⟨e, he, hs⟩ : ∃ e, toEmrCluster c = .ok e ∧ some e.Status = summaryState c := by
      unfold summaryComplete at h0
      split at h0
      · exact ⟨_, rfl, rfl⟩
      · cases h0
    obtain ⟨out, ho, hm⟩ := ih (acc ++ [e]) (fun x hx => hc x (List.mem_cons_of_mem _ hx))
    refine ⟨out, by simp only [queryLoop, he, Outcome.bind, ho], ?_⟩
    rw [hm]
    simp [hs]

/-- The loop of `DescribeEmrCluster` on complete clusters: it succeeds and
    appends the provider's state strings, in order. -/
theorem describeLoop_complete (P : EmrProvider) (out : Option String → DescribeClusterOutput)
    (hdesc : ∀ h id, P.DescribeCluster h id = .ok (out id)) :
    ∀ (ids : List (Option String)) (acc : List DescribeEmrClusterItem) (tr : List EmrCall),
    (∀ id ∈ ids, detailComplete (out id) = true) →
    ∃ items tr1, describeLoop P ids acc tr = (.ok items, tr1) ∧
      items.map (fun e => some e.Status) =
        acc.map (fun e => some e.Status) ++ ids.map (fun id => detailState (out id)) := by
  intro ids
  induction ids with
  | nil => intro acc tr _; exact ⟨acc, tr, rfl, by simp⟩
  | cons id rest ih =>
    intro acc tr hc
    have h0 := hc id (List.mem_cons_self _ _)
    obtain ⟨e, he, hs⟩ : ∃ e, toDescribeEmrCluster P (out id) = .ok e ∧
        some e.Status = detailState (out id) := by
      unfold detailComplete at h0
      split at h0
      · rename_i heq
        unfold toDescribeEmrCluster detailState
        rw [heq]
        exact ⟨_, rfl, rfl⟩
      · cases h0
    obtain ⟨items, tr1, ho, hm⟩ := ih (acc ++ [e]) (tr ++ [EmrCall.DescribeCluster id])
      (fun x hx => hc x (List.mem_cons_of_mem _ hx))
    refine ⟨items, tr1, by simp only [describeLoop, hdesc, he, ho], ?_⟩
    rw [hm]
    simp [hs]

/-- C10 (amended). With a profile and a region given and a client obtained:
    if the provider's clusters all carry a status with a state and a timeline
    (and, for `QueryEmrCluster`, a creation time), both operations return
    normally and the unified `Status` of every cluster is the provider's state
    string, unchanged and in order, whether or not it is a defined state. -/
theorem emr_status_passed_through (P : EmrProvider) (tr : List EmrCall)
    (profile region : String) (hclient : P.GetAWSEmrClient tr profile region = none) :
    (∀ (filter : EmrFilter) (result : ListClustersOutput),
      filter.Profile = some profile → filter.Region = some region →
      (∀ h input, P.ListClusters h input = .ok result) →
      (∀ c ∈ result.Clusters, summaryComplete c = true) →
      ∃ resp tr1, QueryEmrCluster P tr filter = (.ok resp, tr1) ∧
        resp.Clusters.map (fun e => some e.Status) = result.Clusters.map summaryState) ∧
    (∀ (input : DescribeInput) (out : Option String → DescribeClusterOutput),
      input.Profile = some profile → input.Region = some region →
      (∀ h id, P.DescribeCluster h id = .ok (out id)) →
      (∀ id ∈ input.IDS, detailComplete (out id) = true) →
      ∃ items tr1, DescribeEmrCluster P tr input = (.ok items, tr1) ∧
        items.map (fun e => some e.Status) = input.IDS.map fun id => detailState (out id)) := by
  constructor
  · intro filter result hp hr hlist hc
    obtain ⟨out, ho, hm⟩ := queryLoop_complete result.Clusters [] hc
    refine ⟨{ Clusters := out, NextMarker := result.Marker },
      tr ++ [EmrCall.GetAWSEmrClient profile region] ++
        [EmrCall.ListClusters
          { ClusterStates := filter.ClusterStates.map some
            Marker := filter.NextMarker
            CreatedAfter := filter.Period.map fun period => P.now - period }], ?_,
      by simpa using hm⟩
    unfold QueryEmrCluster
    simp only [hp, hr, hclient, hlist, ho, Outcome.bind]
    rfl
  · intro input out hp hr hdesc hc
    obtain ⟨items, tr1, ho, hm⟩ := describeLoop_complete P out hdesc input.IDS []
      (tr ++ [EmrCall.GetAWSEmrClient profile region]) hc
    refine ⟨items, tr1, ?_, by simpa using hm⟩
    unfold DescribeEmrCluster
    simp only [hp, hr, hclient, ho]
    rfl

/-- C10 (counterexample). A provider whose clusters report the state
    `NOT_A_STATE`, which is not a defined unified state: both operations return
    normally and carry `NOT_A_STATE` in the unified `Status` field. -/
theorem emr_undefined_status_counterexample :
    "NOT_A_STATE" ∉ definedClusterStates ∧
    (QueryEmrCluster undefinedStateProvider [] emrFilter).1 =
      .ok { Clusters := [{ ID := some "j-1", Name := some "etl", AddTime := 1700000000
                           Status := "NOT_A_STATE" }]
            NextMarker := none } ∧
    (DescribeEmrCluster undefinedStateProvider [] emrDescribeInput).1 =
      .ok [{ ID := some "j-1", Name := some "etl", Status := "NOT_A_STATE"
             CreateTime := some 1700000000
             Meta := { Id := some "j-1", Name := some "etl", Status := some undefinedStatus
                       Tags := [] }
             Tags := [] }] := by
  decide

/-- Witness of C10 (amended): the provider reporting `NOT_A_STATE`. -/
theorem emr_status_passed_through_witness :
    (∃ resp tr1, QueryEmrCluster undefinedStateProvider [] emrFilter = (.ok resp, tr1) ∧
        resp.Clusters.map (fun e => some e.Status) =
          [some { Id := some "j-1", Name := some "etl", Status := some undefinedStatus }].map
            summaryState) ∧
    (∃ items tr1, DescribeEmrCluster undefinedStateProvider [] emrDescribeInput =
        (.ok items, tr1) ∧
        items.map (fun e => some e.Status) =
          emrDescribeInput.IDS.map fun id =>
            detailState { Cluster := some { Id := id, Name := some "etl"
                                            Status := some undefinedStatus, Tags := [] } }) :=
  ⟨(emr_status_passed_through undefinedStateProvider [] "default" "us-east-1" rfl).1
      emrFilter
      { Clusters := [some { Id := some "j-1", Name := some "etl", Status := some undefinedStatus }]
        Marker := none }
      rfl rfl (fun _ _ => rfl) (by decide),
   (emr_status_passed_through undefinedStateProvider [] "default" "us-east-1" rfl).2
      emrDescribeInput
      (fun id => { Cluster := some { Id := id, Name := some "etl"
                                     Status := some undefinedStatus, Tags := [] } })
      rfl rfl (fun _ _ => rfl) (by decide)⟩

/-! ## Modify, zone identifiers, selector validation and the unfiltered listing -/

/-- A concatenated trace holds a modify-record call when one of its parts does. -/
theorem hasModifyCall_append (a b : List Call) :
    hasModifyCall (a ++ b) = (hasModifyCall a || hasModifyCall b) := by
  induction a with
  | nil => rfl
  | cons c t ih => cases c <;> simp [hasModifyCall, ih]

/-- Zone resolution never panics, and what it adds to the trace holds no
    modify-record call. -/
theorem getDomainIdByname_trace (P : Provider) (tr : List Call) (profile domain : String) :
    (getDomainIdByname P tr profile domain).1 ≠ .panic ∧
    ∃ ext, (getDomainIdByname P tr profile domain).2 = tr ++ ext ∧ hasModifyCall ext = false := by
  unfold getDomainIdByname
  by_cases hp : hasPrefix domain "zone-" = true
  · simp only [hp, if_true]
    exact ⟨by simp, [], by simp, rfl⟩
  · have hp' : hasPrefix domain "zone-" = false := by simpa using hp
    simp only [hp', Bool.false_eq_true, if_false]
    have htrace : ∃ ext, (DescribePrivateDomainList P tr profile { DomainKeyword := some domain }).2 =
        tr ++ ext ∧ hasModifyCall ext = false := by
      unfold DescribePrivateDomainList
      cases hc : P.GetTencentPrivateDNSClient tr profile with
      | some e => exact ⟨[Call.GetTencentPrivateDNSClient profile], rfl, rfl⟩
      | none =>
        dsimp only
        split <;>
          exact ⟨[Call.GetTencentPrivateDNSClient profile,
            Call.DescribePrivateZoneList (some domain)], by simp, rfl⟩
    cases hl : DescribePrivateDomainList P tr profile { DomainKeyword := some domain } with
    | mk o tr1 =>
      rw [hl] at htrace
      cases o with
      | err e => exact ⟨by simp, htrace⟩
      | panic =>
        exfalso
        unfold DescribePrivateDomainList at hl
        simp only [errorf] at hl
        split at hl
        · simp at hl
        · split at hl <;> simp at hl
      | ok resp =>
        obtain ⟨zones, hz⟩ := DescribePrivateDomainList_ok P tr profile _ resp tr1 hl
        dsimp only
        by_cases hlen : resp.DomainList.length ≠ 1
        · rw [if_pos hlen]
          exact ⟨by simp [errorf], htrace⟩
        · rw [if_neg hlen]
          match zones, hz with
          | [], hz => exact absurd (by rw [hz]; simp) hlen
          | z :: rest, hz =>
            rw [hz]
            simp only [List.map_cons, toPrivateDomain]
            exact ⟨by simp, htrace⟩

/-- C12. For every provider and every modify request whose `Status` field is
    set, whatever its other fields, `ModifyPrivateRecord` returns an error, and
    the calls it adds to the trace hold no modify-record call. -/
theorem ModifyPrivateRecord_rejects_status (P : Provider) (tr : List Call) (profile : String)
    (input : ModifyRecordRequest) (hstatus : input.Status.isSome = true) :
    (ModifyPrivateRecord P tr profile input).1.isErr = true ∧
    ∃ ext, (ModifyPrivateRecord P tr profile input).2 = tr ++ ext ∧
      hasModifyCall ext = false := by
  unfold ModifyPrivateRecord
  simp only [errorf]
  split
  · exact ⟨rfl, [Call.GetTencentPrivateDNSClient profile], rfl, rfl⟩
  · split
    · exact ⟨rfl, [Call.GetTencentPrivateDNSClient profile], rfl, rfl⟩
    · rename_i domain _
      obtain ⟨hnp, ext, hext, hm⟩ :=
        getDomainIdByname_trace P (tr ++ [Call.GetTencentPrivateDNSClient profile]) profile domain
      have hfinal : ∀ tr2, (getDomainIdByname P (tr ++ [Call.GetTencentPrivateDNSClient profile])
          profile domain).2 = tr2 → ∃ ext2, tr2 = tr ++ ext2 ∧ hasModifyCall ext2 = false := by
        intro tr2 h2
        refine ⟨[Call.GetTencentPrivateDNSClient profile] ++ ext, ?_, ?_⟩
        · rw [← h2, hext, List.append_assoc]
        · rw [hasModifyCall_append, hm]; rfl
      split
      · rename_i e tr2 heq
        exact ⟨rfl, hfinal tr2 (by rw [heq])⟩
      · rename_i tr2 heq
        exact absurd (by rw [heq]) hnp
      · rename_i zoneId tr2 heq
        have h2 := hfinal tr2 (by rw [heq])
        split
        · exact ⟨rfl, h2⟩
        · split
          · exact ⟨rfl, h2⟩
          · split
            · exact ⟨rfl, h2⟩
            · split
              · exact ⟨rfl, h2⟩
              · split
                · exact ⟨rfl, h2⟩
                · rename_i hnone
                  rw [hnone] at hstatus
                  cases hstatus

/-- Witness of C12: a complete modify request with `Status = false`. -/
theorem ModifyPrivateRecord_rejects_status_witness :
    (ModifyPrivateRecord (simProvider []) [] "default" modifyWithStatus).1.isErr = true ∧
    ∃ ext, (ModifyPrivateRecord (simProvider []) [] "default" modifyWithStatus).2 = [] ++ ext ∧
      hasModifyCall ext = false :=
  ModifyPrivateRecord_rejects_status (simProvider []) [] "default" modifyWithStatus (by decide)

/-- The same request without the status toggle reaches the provider's
    modify-record call. -/
theorem ModifyPrivateRecord_without_status_calls :
    hasModifyCall
      (ModifyPrivateRecord (simProvider []) [] "default"
        { modifyWithStatus with Status := none }).2 = true ∧
    (ModifyPrivateRecord (simProvider []) [] "default" modifyWithStatus) =
      (.err (.other
        "status is not supported for tencent cloud private dns. remove it from input"),
        [Call.GetTencentPrivateDNSClient "default", Call.GetTencentPrivateDNSClient "default",
          Call.DescribePrivateZoneList (some "example.internal")]) := by
  decide

/-- C13. For every provider and every input that starts with `zone-`,
    `getDomainIdByname` returns the input unchanged with no error and leaves
    the trace as it was: no call is made, the zone listing is not invoked. -/
theorem getDomainIdByname_zone_id_unchanged (P : Provider) (tr : List Call)
    (profile domain : String) (hpre : hasPrefix domain "zone-" = true) :
    getDomainIdByname P tr profile domain = (.ok domain, tr) := by
  unfold getDomainIdByname
  rw [if_pos hpre]

/-- Witness of C13: a zone identifier. -/
theorem getDomainIdByname_zone_id_unchanged_witness :
    getDomainIdByname (simProvider []) [] "default" "zone-6xg5xgky" =
      (.ok "zone-6xg5xgky", []) :=
  getDomainIdByname_zone_id_unchanged (simProvider []) [] "default" "zone-6xg5xgky" (by decide)

/-- C11 (code defect). With a region and no profile `QueryEmrCluster` panics,
    and with a profile and no region `DescribeEmrCluster` panics: both pass
    the validation and dereference the absent selector before the client
    factory is called. With neither selector both return the validation
    error "region or profile is empty" and make no call. -/
theorem emr_one_selector_panics :
    QueryEmrCluster undefinedStateProvider [] regionOnlyFilter = (.panic, []) ∧
    DescribeEmrCluster undefinedStateProvider [] profileOnlyInput = (.panic, []) ∧
    QueryEmrCluster undefinedStateProvider [] { regionOnlyFilter with Region := none } =
      (.err (.other "region or profile is empty"), []) ∧
    DescribeEmrCluster undefinedStateProvider [] { profileOnlyInput with Profile := none } =
      (.err (.other "region or profile is empty"), []) := by
  decide

/-- Both cluster operations, for every provider: with neither selector the
    validation error and no call; with exactly one selector a panic and no
    call. -/
theorem emr_selector_validation (P : EmrProvider) (tr : List EmrCall) (filter : EmrFilter)
    (input : DescribeInput) :
    ((filter.Region = none ∧ filter.Profile = none) →
      QueryEmrCluster P tr filter = (.err (.other "region or profile is empty"), tr)) ∧
    ((filter.Region.isSome ≠ filter.Profile.isSome) →
      QueryEmrCluster P tr filter = (.panic, tr)) ∧
    ((input.Region = none ∧ input.Profile = none) →
      DescribeEmrCluster P tr input = (.err (.other "region or profile is empty"), tr)) ∧
    ((input.Region.isSome ≠ input.Profile.isSome) →
      DescribeEmrCluster P tr input = (.panic, tr)) := by
  refine ⟨?_, ?_, ?_, ?_⟩
  · rintro ⟨hr, hp⟩
    simp [QueryEmrCluster, hr, hp, errorf]
  · intro h
    unfold QueryEmrCluster
    cases hr : filter.Region <;> cases hp : filter.Profile <;> simp [hr, hp] at h ⊢
  · rintro ⟨hr, hp⟩
    simp [DescribeEmrCluster, hr, hp, errorf]
  · intro h
    unfold DescribeEmrCluster
    cases hr : input.Region <;> cases hp : input.Profile <;> simp [hr, hp] at h ⊢

/-- C14. With no keyword, for every simulated offset provider holding `N` raw
    records, the listing terminates (any fuel above `(N - 1) / 100` is enough)
    and returns all `N` records once each in provider order with
    `TotalCount = N`, after record-list calls at offsets 0, 100, 200, ... (the
    first offset is left unset): `ceil(N / 100)` calls when `N ≥ 1`, and one
    call, returning the empty list, when `N = 0`. -/
theorem DescribePrivateRecordList_sim_unfiltered (raw : List PrivateZoneRecord)
    (profile domain : String) (fuel : Nat) (hfuel : (raw.length - 1) / 100 < fuel) :
    ∃ tr,
      DescribePrivateRecordList (simProvider raw) fuel [] profile
          { Domain := some domain, Keyword := none } =
        (some (.ok { RecordList := raw.map toRecord
                     TotalCount := some (raw.length : Int) }), tr) ∧
      sentOffsets tr =
        (List.range (max 1 ((raw.length + 99) / 100))).map (fun j => ((100 * j : Nat) : Int)) ∧
      (1 ≤ raw.length → (recordListRequests tr).length = (raw.length + 99) / 100) ∧
      (raw.length = 0 → (recordListRequests tr).length = 1) := by
  obtain ⟨zoneId, tr, hrun, hreq⟩ :=
    DescribePrivateRecordList_sim raw none profile domain fuel (fun h => absurd rfl h)
      (fun _ _ => rfl) hfuel
  have hall : raw.filter (keeps none) = raw := List.filter_eq_self.mpr (fun _ _ => rfl)
  rw [hall] at hrun
  have hk : max 1 ((raw.length + 99) / 100) = (raw.length - 1) / 100 + 1 := by omega
  refine ⟨tr, hrun, ?_, ?_, ?_⟩
  · rw [sentOffsets, hreq, hk, List.range_succ_eq_map]
    simp only [List.map_cons, List.map_map, Option.getD_none, Option.getD_some]
    rfl
  · intro h1
    rw [hreq]
    simp only [List.length_cons, List.length_map, List.length_range]
    omega
  · intro h0
    rw [hreq]
    simp only [List.length_cons, List.length_map, List.length_range]
    omega

set_option maxRecDepth 100000 in
/-- Witness of C14: 120 records, two calls. -/
theorem DescribePrivateRecordList_sim_unfiltered_witness :
    ∃ tr,
      DescribePrivateRecordList (simProvider pagedRaw) 2 [] "default"
          { Domain := some "zone-1", Keyword := none } =
        (some (.ok { RecordList := pagedRaw.map toRecord
                     TotalCount := some (pagedRaw.length : Int) }), tr) ∧
      sentOffsets tr =
        (List.range (max 1 ((pagedRaw.length + 99) / 100))).map
          (fun j => ((100 * j : Nat) : Int)) ∧
      (1 ≤ pagedRaw.length → (recordListRequests tr).length = (pagedRaw.length + 99) / 100) ∧
      (pagedRaw.length = 0 → (recordListRequests tr).length = 1) :=
  DescribePrivateRecordList_sim_unfiltered pagedRaw "default" "zone-1" 2 (by decide)

end MultiCloud
